import Mathlib

/-!
Shallow embedding of the agent orchestration core of the `explainagents`
repository (`src/core/agent.py` and `src/core/orchestrator.py`), together
with theorems settling the specification claims about it.

Modelling conventions:
* Python dicts with string keys are association lists `List (String × α)`
  with first-match lookup and in-place-overwrite insertion.
* Dynamically typed Python values that flow through the core (context
  values, tool arguments and results, schemas) are a small inductive
  `PyObj`.
* The external standard-library JSON codec (`json.loads`, `json.dumps`)
  and Python `str` rendering are abstracted as an environment `PyEnv` of
  total/fallible functions; theorems quantify over the environment.
* The completion gateway (`LLMClient.complete`, an external collaborator)
  is a pure scripted stub `Nat → GatewayCall → Response`: the `Nat` is the
  number of gateway calls already made in the current run, so a stub can
  script a fixed response sequence.
* Python exceptions raised and caught inside the embedded code are
  `Except String`; a raised-and-propagating exception of an embedded
  operation makes that operation return `Except.error`.
* Timestamps (`datetime.now()`) are nondeterministic and are omitted from
  history and log records; no claim mentions them.
* For verification, the embedded `run`/`execute` results additionally
  record the trace of gateway calls made (`calls`) and the final message
  list; these fields are write-only instrumentation that the control flow
  never reads.
-/

/-- A single quote character, used inside embedded Python error messages. -/
def pyQuote : String := (Char.ofNat 39).toString

/-- Token usage statistics, as returned by the gateway and accumulated by a run. -/
structure Usage where
  input_tokens : Nat
  output_tokens : Nat
  total_tokens : Nat
deriving Repr, DecidableEq

/-- The all-zero usage record. -/
def Usage.zero : Usage := ⟨0, 0, 0⟩

/-- Componentwise addition of usage records (the `+=` updates in `Agent.run`). -/
def Usage.add (a b : Usage) : Usage :=
  ⟨a.input_tokens + b.input_tokens, a.output_tokens + b.output_tokens,
   a.total_tokens + b.total_tokens⟩

/-- A dynamically typed Python value as it flows through the core. -/
inductive PyObj where
  | str (s : String)
  | int (n : Int)
  | bool (b : Bool)
  | pynone
  | list (items : List PyObj)
  | dict (fields : List (String × PyObj))
deriving Repr

/-- Abstraction of the Python runtime facilities the core uses:
the standard-library JSON codec and `str` rendering.  `jsonLoads` models
`json.loads` (the error carries `str(e)` of the decode exception),
`jsonDumps` models `json.dumps(v)`, `jsonDumpsIndent2` models
`json.dumps(v, indent=2)`, and `pyStr` models `str(v)`. -/
structure PyEnv where
  jsonLoads : String → Except String PyObj
  jsonDumps : PyObj → String
  jsonDumpsIndent2 : PyObj → String
  pyStr : PyObj → String

/-- First-match lookup in an association list (Python `d[k]` / `k in d`). -/
def dictLookup {α : Type} : List (String × α) → String → Option α
  | [], _ => Option.none
  | (k, v) :: rest, key => if k = key then Option.some v else dictLookup rest key

/-- Python dict assignment `d[k] = v`: overwrite in place if the key exists,
otherwise append at the end (insertion order preserved). -/
def dictSet {α : Type} : List (String × α) → String → α → List (String × α)
  | [], key, v => [(key, v)]
  | (k, w) :: rest, key, v =>
      if k = key then (k, v) :: rest else (k, w) :: dictSet rest key v

/-- Tool-call arguments as delivered by the gateway: either a raw JSON string
or an already decoded object (`tc["arguments"]` may be `str` or `dict`). -/
inductive PyArgs where
  | rawStr (s : String)
  | obj (o : PyObj)

/-- A tool-call request from a completion (`{id, name, arguments}`). -/
structure ToolCallReq where
  id : Option String
  name : String
  arguments : PyArgs

/-- A tool call in the provider wire format built at `agent.py` lines 149-158:
`{id, type: "function", function: {name, arguments}}`. -/
structure LiteToolCall where
  id : Option String
  type : String
  fname : String
  arguments : String

/-- A chat message as built by the agent loop. -/
inductive Message where
  | user (content : String)
  | assistant (content : Option String) (tool_calls : List LiteToolCall)
  | tool (tool_call_id : Option String) (name : String) (content : String)

/-- A standardized completion result from the gateway
(`{content, tool_calls, usage}`; `content` defaults to `""`). -/
structure Response where
  content : String
  tool_calls : List ToolCallReq
  usage : Usage

/-- The argument record of one `LLMClient.complete` call made by the agent. -/
structure GatewayCall where
  model : Option String
  messages : List Message
  system : String
  tools : Option (List PyObj)
  json_schema : Option String
  max_tokens : Nat
  temperature : Rat

/-- A registered tool: its parameter schema and its body.  The body receives
the decoded arguments and either returns a result value or raises
(`Except.error` carries `str(e)`). -/
structure ToolEntry where
  function : PyObj → Except String PyObj
  schema : PyObj

/-- The tool registry handed to an agent (`{name: {"function", "schema"}}`). -/
def ToolRegistry : Type := List (String × ToolEntry)

/-- Structured-output settings `{enabled, schema}` of an agent config.
The schema name is resolved against the external `evaluation.schemas`
module; the embedding carries the name itself in the gateway call. -/
structure StructuredOutputCfg where
  enabled : Bool
  schema : String

/-- Agent configuration (`AgentConfig` dataclass); fields the core control
flow never reads (provider, base_url, api_key) are omitted. -/
structure AgentConfig where
  name : String
  system_prompt : String
  tools : List String
  model : Option String := Option.none
  max_tokens : Nat := 4096
  max_iterations : Nat := 5
  temperature : Option Rat := Option.none
  structured_output : Option StructuredOutputCfg := Option.none

/-- Label of an interaction-history record: a numeric iteration or the
structured-output `"synthesis"` step. -/
inductive IterLabel where
  | num (n : Nat)
  | synthesis

/-- One interaction-history record (timestamp omitted, see module comment). -/
structure HistoryEntry where
  iteration : IterLabel
  messages : List Message
  response : Response

/-- A constructed agent: configuration, gateway handle, resolved tool
registry and the append-only interaction history (`self.history`). -/
structure Agent where
  config : AgentConfig
  gateway : Nat → GatewayCall → Response
  tool_registry : ToolRegistry
  history : List HistoryEntry

/-- Agent construction (`Agent.__init__`): validates that every configured
tool name exists in the registry, raising `ValueError` on the first
missing one, before any run can be made. -/
def Agent.init (config : AgentConfig) (gateway : Nat → GatewayCall → Response)
    (tool_registry : ToolRegistry) : Except String Agent :=
  match config.tools.find? (fun t => (dictLookup tool_registry t).isNone) with
  | Option.some t => Except.error ("Tool " ++ pyQuote ++ t ++ pyQuote ++ " not found in registry")
  | Option.none => Except.ok { config := config, gateway := gateway,
                               tool_registry := tool_registry, history := [] }

/-- Tool-schema collection (`Agent._get_tool_schemas`): `None` when the config
lists no tools; otherwise the schemas of the configured tools found in the
registry, or `None` when that list is empty. -/
def Agent.getToolSchemas (a : Agent) : Option (List PyObj) :=
  if a.config.tools.isEmpty then Option.none
  else
    let schemas := a.config.tools.filterMap
      (fun t => (dictLookup a.tool_registry t).map (fun e => e.schema))
    if schemas.isEmpty then Option.none else Option.some schemas

/-- One line of `Agent._format_context`: dict and list values are rendered
with `json.dumps(value, indent=2)`, everything else with `str(value)`. -/
def formatContextLine (env : PyEnv) (kv : String × PyObj) : String :=
  match kv.2 with
  | PyObj.dict fs => kv.1 ++ ": " ++ env.jsonDumpsIndent2 (PyObj.dict fs)
  | PyObj.list items => kv.1 ++ ": " ++ env.jsonDumpsIndent2 (PyObj.list items)
  | v => kv.1 ++ ": " ++ env.pyStr v

/-- Rendering of a context dict into readable text (`Agent._format_context`). -/
def formatContext (env : PyEnv) (ctx : List (String × PyObj)) : String :=
  String.intercalate "\n" (ctx.map (formatContextLine env))

/-- The initial user message of a run (`agent.py` lines 91-99).  The Python
guard `if context:` is dict truthiness: `None` and the empty dict both take
the verbatim branch. -/
def initialMessage (env : PyEnv) (message : String)
    (context : Option (List (String × PyObj))) : Message :=
  match context with
  | Option.some ctx =>
      if ctx.isEmpty then Message.user message
      else Message.user ("Context from previous steps:\n" ++ formatContext env ctx ++
                         "\n\nTask: " ++ message)
  | Option.none => Message.user message

/-- Tool dispatch (`Agent._execute_tool`): unknown name and undecodable JSON
arguments raise `ValueError`; otherwise the tool body runs on the decoded
arguments and may itself raise. -/
def executeTool (env : PyEnv) (reg : ToolRegistry) (tool_name : String)
    (arguments : PyArgs) : Except String PyObj :=
  match dictLookup reg tool_name with
  | Option.none => Except.error ("Tool " ++ pyQuote ++ tool_name ++ pyQuote ++ " not found")
  | Option.some entry =>
      match arguments with
      | PyArgs.rawStr s =>
          match env.jsonLoads s with
          | Except.error _ => Except.error ("Invalid JSON arguments: " ++ s)
          | Except.ok args => entry.function args
      | PyArgs.obj o => entry.function o

/-- Serialization of a successful tool result into message text
(`json.dumps(result)` for dicts, `str(result)` otherwise). -/
def serializeToolResult (env : PyEnv) (r : PyObj) : String :=
  match r with
  | PyObj.dict fs => env.jsonDumps (PyObj.dict fs)
  | v => env.pyStr v

/-- The text placed in a tool-role message for one requested call
(`agent.py` lines 172-176): the serialized result on success, or the
`"Error executing tool: ..."` string when handling the call raised. -/
def toolResultContent (env : PyEnv) (reg : ToolRegistry) (tc : ToolCallReq) : String :=
  match executeTool env reg tc.name tc.arguments with
  | Except.ok r => serializeToolResult env r
  | Except.error e => "Error executing tool: " ++ e

/-- The tool-execution phase of one loop iteration (`agent.py` lines 167-184):
for every requested call in order, append the call to the accumulated list
and append one tool-role message carrying its result text. -/
def execToolPhase (env : PyEnv) (reg : ToolRegistry) :
    List ToolCallReq → List Message → List ToolCallReq →
    List Message × List ToolCallReq
  | [], msgs, acc => (msgs, acc)
  | tc :: rest, msgs, acc =>
      execToolPhase env reg rest
        (msgs ++ [Message.tool tc.id tc.name (toolResultContent env reg tc)])
        (acc ++ [tc])

/-- Conversion of a tool-call request to the provider wire format
(`agent.py` lines 149-158). -/
def toLiteToolCall (env : PyEnv) (tc : ToolCallReq) : LiteToolCall :=
  { id := tc.id, type := "function", fname := tc.name,
    arguments := match tc.arguments with
                 | PyArgs.rawStr s => s
                 | PyArgs.obj o => env.jsonDumps o }

/-- Mutable state of the agentic loop in `Agent.run`; `calls` is the
write-only instrumentation trace of gateway interactions. -/
structure LoopState where
  messages : List Message
  all_tool_calls : List ToolCallReq
  total_usage : Usage
  history : List HistoryEntry
  iteration : Nat
  final_response : Option Response
  calls : List (GatewayCall × Response)

/-- The gateway-call record built at the top of each loop iteration
(`agent.py` lines 117-124). -/
def loopCall (a : Agent) (tool_schemas : Option (List PyObj)) (st : LoopState) : GatewayCall :=
  { model := a.config.model, messages := st.messages,
    system := a.config.system_prompt, tools := tool_schemas,
    json_schema := Option.none, max_tokens := a.config.max_tokens,
    temperature := match a.config.temperature with
                   | Option.some t => t
                   | Option.none => 0 }

/-- One-iteration state update after receiving `response` (`agent.py`
lines 126-140): add usage, append a history record, remember the response
and record the gateway interaction. -/
def afterResponse (st : LoopState) (call : GatewayCall) (response : Response) : LoopState :=
  { st with
    total_usage := st.total_usage.add response.usage,
    history := st.history ++ [{ iteration := IterLabel.num (st.iteration + 1),
                                messages := st.messages, response := response }],
    iteration := st.iteration + 1,
    final_response := Option.some response,
    calls := st.calls ++ [(call, response)] }

/-- The completion received in the loop iteration starting from `st`. -/
def loopResponse (a : Agent) (tool_schemas : Option (List PyObj)) (st : LoopState) : Response :=
  a.gateway st.calls.length (loopCall a tool_schemas st)

/-- The state after a full non-breaking loop iteration (`agent.py` lines
114-184): receive the completion, append the assistant message carrying
the converted tool-call requests (empty content becomes `None`), then run
the tool-execution phase. -/
def loopContinueState (env : PyEnv) (a : Agent) (tool_schemas : Option (List PyObj))
    (st : LoopState) : LoopState :=
  let response := loopResponse a tool_schemas st
  let st1 := afterResponse st (loopCall a tool_schemas st) response
  let asstContent : Option String :=
    if response.content = "" then Option.none else Option.some response.content
  let msgs1 := st1.messages ++
    [Message.assistant asstContent (response.tool_calls.map (toLiteToolCall env))]
  let phase := execToolPhase env a.tool_registry response.tool_calls msgs1 st1.all_tool_calls
  { st1 with messages := phase.1, all_tool_calls := phase.2 }

/-- The agentic loop of `Agent.run` (`while iteration < max_iterations`),
by recursion on the remaining iteration budget: the loop breaks right
after a completion without tool calls, and otherwise finishes the
iteration and continues. -/
def agentLoop (env : PyEnv) (a : Agent) (tool_schemas : Option (List PyObj)) :
    Nat → LoopState → LoopState
  | 0, st => st
  | Nat.succ rem, st =>
      if (loopResponse a tool_schemas st).tool_calls.isEmpty then
        afterResponse st (loopCall a tool_schemas st) (loopResponse a tool_schemas st)
      else
        agentLoop env a tool_schemas rem (loopContinueState env a tool_schemas st)

/-- The initial loop state of a run. -/
def initState (env : PyEnv) (a : Agent) (message : String)
    (context : Option (List (String × PyObj))) : LoopState :=
  { messages := [initialMessage env message context], all_tool_calls := [],
    total_usage := Usage.zero, history := a.history, iteration := 0,
    final_response := Option.none, calls := [] }

/-- The loop state at which the agentic loop of `Agent.run` stops. -/
def Agent.loopState (env : PyEnv) (a : Agent) (message : String)
    (context : Option (List (String × PyObj))) : LoopState :=
  agentLoop env a a.getToolSchemas a.config.max_iterations (initState env a message context)

/-- Structured-data outcome of the finalization parse: the decoded object, or
the error-marker payload `{error, raw_content}` built on `JSONDecodeError`. -/
inductive StructuredData where
  | parsed (o : PyObj)
  | parseError (error : String) (raw_content : String)

/-- What `Agent.run` returns: the Python result dict (`content`,
`structured_data` when finalizing, `tool_calls`, `usage`, `history`), plus
the instrumentation fields `calls` and `messages` (see module comment). -/
structure RunResult where
  content : String
  structured_data : Option StructuredData
  tool_calls : List ToolCallReq
  usage : Usage
  history : List HistoryEntry
  calls : List (GatewayCall × Response)
  messages : List Message

/-- Whether structured output is required (`Agent._requires_structured_output`). -/
def requiresStructuredOutput (cfg : AgentConfig) : Bool :=
  match cfg.structured_output with
  | Option.none => false
  | Option.some so => so.enabled

/-- The schema name resolved for structured output.  The source resolves it
via `getattr` on the external `evaluation.schemas` module; the embedding
carries the configured name (meaningful only when structured output is
enabled, the only situation in which the source reads it). -/
def Agent.structuredSchemaName (a : Agent) : String :=
  match a.config.structured_output with
  | Option.some so => so.schema
  | Option.none => ""

/-- The synthesis message list of `Agent._finalize_with_structured_output`. -/
def synthMessages (st : LoopState) : List Message :=
  st.messages ++ [Message.user
    "Based on your analysis above, provide your final response in the required structured format."]

/-- The gateway-call record of the structured finalization
(`agent.py` lines 290-297): tools disabled, temperature forced to 0. -/
def synthCall (a : Agent) (st : LoopState) : GatewayCall :=
  { model := a.config.model, messages := synthMessages st,
    system := a.config.system_prompt, tools := Option.none,
    json_schema := Option.some a.structuredSchemaName,
    max_tokens := a.config.max_tokens, temperature := 0 }

/-- Structured finalization (`Agent._finalize_with_structured_output`): one
further gateway call, usage and history updates, and the JSON parse of the
returned text with the error-marker fallback.  The `final_response`
argument of the source is accepted but never read, as in the source. -/
def finalizeStructured (env : PyEnv) (a : Agent) (st : LoopState)
    (finalResponseArg : Response) : RunResult :=
  let call := synthCall a st
  let structured_response := a.gateway st.calls.length call
  let structured_data : StructuredData :=
    match env.jsonLoads structured_response.content with
    | Except.ok o => StructuredData.parsed o
    | Except.error e =>
        StructuredData.parseError ("Failed to parse structured output: " ++ e)
          structured_response.content
  let _ := finalResponseArg
  { content := structured_response.content,
    structured_data := Option.some structured_data,
    tool_calls := st.all_tool_calls,
    usage := st.total_usage.add structured_response.usage,
    history := st.history ++ [{ iteration := IterLabel.synthesis,
                                messages := synthMessages st,
                                response := structured_response }],
    calls := st.calls ++ [(call, structured_response)],
    messages := synthMessages st }

/-- The fallback completion used when the loop made no gateway call at all
(`agent.py` lines 186-192). -/
def maxIterFallback : Response :=
  { content := "Maximum iterations reached", tool_calls := [], usage := Usage.zero }

/-- Execution of an agent on a message with optional context (`Agent.run`). -/
def Agent.run (env : PyEnv) (a : Agent) (message : String)
    (context : Option (List (String × PyObj))) : RunResult :=
  let st := a.loopState env message context
  let final_response :=
    match st.final_response with
    | Option.some r => r
    | Option.none => maxIterFallback
  if requiresStructuredOutput a.config then
    finalizeStructured env a st final_response
  else
    { content := final_response.content, structured_data := Option.none,
      tool_calls := st.all_tool_calls, usage := st.total_usage,
      history := st.history, calls := st.calls, messages := st.messages }

/-- Input/output snapshot stored in a workflow execution-log entry.  The
source stores `None`, a `{"task", "context"}` dict, a `{"task"}` dict, or
the full agent result. -/
inductive LogIO where
  | noData
  | taskInput (task : String) (context : List (String × PyObj))
  | taskOnly (task : String)
  | result (r : RunResult)

/-- One workflow execution-log entry (`Workflow._log_step`; timestamp
omitted, the run-result and context snapshots are taken by value at log
time — see module comment). -/
structure LogEntry where
  step : String
  agent : String
  input : LogIO
  output : LogIO

/-- Workflow configuration; `agent_sequence` is `Option` because the source
reads it with `config.get` and a per-variant default. -/
structure WorkflowCfg where
  agent_sequence : Option (List String)

/-- What `Workflow.execute` returns, plus the instrumentation trace `calls`
of every gateway interaction made by the agents it ran. -/
structure WfResult where
  result : String
  execution_log : List LogEntry
  agent_history : List HistoryEntry
  usage : Usage
  calls : List (GatewayCall × Response)

/-- Value of `data.get(k)` (`None` when absent). -/
def dataGet (data : List (String × PyObj)) (k : String) : PyObj :=
  match dictLookup data k with
  | Option.some v => v
  | Option.none => PyObj.pynone

/-- The context dict the single-agent and sequential workflows build from
`data`: log source, intent source and the list of available data keys. -/
def baseContext (data : List (String × PyObj)) : List (String × PyObj) :=
  [("log_source", dataGet data "log_source"),
   ("intent_source", dataGet data "intent_source"),
   ("available_data", PyObj.list (data.map (fun kv => PyObj.str kv.1)))]

/-- Single-agent workflow (`SingleAgentWorkflow.execute`): resolve the first
name of `agent_sequence` (default `["main"]`; an empty configured sequence
raises `IndexError`), run that agent once on the task with the base
context. -/
def SingleAgentWorkflow.execute (env : PyEnv) (agents : List (String × Agent))
    (cfg : WorkflowCfg) (task : String) (data : List (String × PyObj)) :
    Except String WfResult :=
  match cfg.agent_sequence.getD ["main"] with
  | [] => Except.error "list index out of range"
  | agent_name :: _ =>
      match dictLookup agents agent_name with
      | Option.none => Except.error ("Agent " ++ pyQuote ++ agent_name ++ pyQuote ++ " not found")
      | Option.some agent =>
          let context := baseContext data
          let startEntry : LogEntry :=
            { step := "start", agent := agent_name,
              input := LogIO.taskInput task context, output := LogIO.noData }
          let r := agent.run env task (Option.some context)
          let completeEntry : LogEntry :=
            { step := "complete", agent := agent_name,
              input := LogIO.noData, output := LogIO.result r }
          Except.ok { result := r.content,
                      execution_log := [startEntry, completeEntry],
                      agent_history := r.history, usage := r.usage, calls := r.calls }

/-- Mutable state threaded through the sequential workflow loop.  The
`agents` map is threaded because Python agents are mutable objects whose
interaction history grows across runs. -/
structure SeqState where
  agents : List (String × Agent)
  context : List (String × PyObj)
  total_usage : Usage
  histories : List HistoryEntry
  log : List LogEntry
  final_result : Option String
  calls : List (GatewayCall × Response)

/-- The task string handed to step `i` of the sequential workflow
(`orchestrator.py` lines 141-144). -/
def seqTask (task : String) (i : Nat) (prev : Option String) : String :=
  if i = 0 then task
  else "Previous agent output: " ++ prev.getD "None" ++ "\n\nOriginal task: " ++ task

/-- One step of the sequential workflow loop (`orchestrator.py` lines
137-160).  An unresolved name leaves the state unchanged; the loop is only
entered after validation, which makes that case unreachable. -/
def seqStep (env : PyEnv) (task : String) (i : Nat) (name : String) (st : SeqState) : SeqState :=
  match dictLookup st.agents name with
  | Option.none => st
  | Option.some agent =>
      let agent_task := seqTask task i st.final_result
      let startEntry : LogEntry :=
        { step := "agent_" ++ toString (i + 1) ++ "_start", agent := name,
          input := LogIO.taskInput agent_task st.context, output := LogIO.noData }
      let r := agent.run env agent_task (Option.some st.context)
      let completeEntry : LogEntry :=
        { step := "agent_" ++ toString (i + 1) ++ "_complete", agent := name,
          input := LogIO.noData, output := LogIO.result r }
      { agents := dictSet st.agents name { agent with history := r.history },
        context := dictSet st.context (name ++ "_output") (PyObj.str r.content),
        total_usage := st.total_usage.add r.usage,
        histories := st.histories ++ r.history,
        log := st.log ++ [startEntry, completeEntry],
        final_result := Option.some r.content,
        calls := st.calls ++ r.calls }

/-- The sequential workflow loop over the (enumerated) agent sequence. -/
def seqLoop (env : PyEnv) (task : String) : Nat → List String → SeqState → SeqState
  | _, [], st => st
  | i, n :: rest, st => seqLoop env task (i + 1) rest (seqStep env task i n st)

/-- The initial sequential-workflow state. -/
def seqInit (agents : List (String × Agent)) (data : List (String × PyObj)) : SeqState :=
  { agents := agents, context := baseContext data, total_usage := Usage.zero,
    histories := [], log := [], final_result := Option.none, calls := [] }

/-- Sequential workflow (`SequentialWorkflow.execute`): validates that the
agent sequence is non-empty and that every listed name resolves, before
any agent (and hence any gateway call) runs; then executes the agents in
order, threading the growing context. -/
def SequentialWorkflow.execute (env : PyEnv) (agents : List (String × Agent))
    (cfg : WorkflowCfg) (task : String) (data : List (String × PyObj)) :
    Except String WfResult :=
  let agent_sequence := cfg.agent_sequence.getD []
  if agent_sequence.isEmpty then
    Except.error "Sequential workflow requires agent_sequence in config"
  else
    match agent_sequence.find? (fun n => (dictLookup agents n).isNone) with
    | Option.some n => Except.error ("Agent " ++ pyQuote ++ n ++ pyQuote ++ " not found")
    | Option.none =>
        let st := seqLoop env task 0 agent_sequence (seqInit agents data)
        Except.ok { result := st.final_result.getD "None",
                    execution_log := st.log, agent_history := st.histories,
                    usage := st.total_usage, calls := st.calls }

/-- First line of a specialist's system prompt
(`HierarchicalWorkflow._get_specialist_capabilities` body; `split("\n")` on
any string is non-empty, so the `else` arm of the source is dead). -/
def promptFirstLine (s : String) : String :=
  ((s.trim).splitOn "\n").headD ""

/-- Capability blurb list shown to the supervisor
(`_get_specialist_capabilities`): one line per specialist name that
resolves in the agents map. -/
def specialistCapabilities (agents : List (String × Agent)) (names : List String) : String :=
  String.intercalate "\n" (names.filterMap (fun n =>
    (dictLookup agents n).map (fun a =>
      "- " ++ n ++ ": " ++ promptFirstLine a.config.system_prompt)))

/-- The planning task handed to the supervisor (`orchestrator.py` lines
218-239). -/
def planningTask (task : String) (specialist_names : List String) (caps : String) : String :=
  "Task: " ++ task ++
  "\n\nYou are the supervisor. Analyze this task and create an execution plan." ++
  "\n\nAvailable specialist agents: " ++ String.intercalate ", " specialist_names ++
  "\n\nSpecialist capabilities:\n" ++ caps ++
  "\n\nCreate a plan by deciding:" ++
  "\n1. Which specialists should work on this task?" ++
  "\n2. What specific subtask should each specialist handle?" ++
  "\n3. In what order should they execute? (note: parallel execution not yet implemented, use sequential)" ++
  "\n\nRespond in this format:\nPLAN:" ++
  "\n- Agent: <specialist_name>\n  Subtask: <specific subtask for this agent>" ++
  "\n- Agent: <specialist_name>\n  Subtask: <specific subtask for this agent>" ++
  "\n\nThen wait for their results before synthesizing."

/-- The context dict of the hierarchical workflow (`orchestrator.py` lines
206-212). -/
def hierContext (agents : List (String × Agent)) (data : List (String × PyObj))
    (specialist_names : List String) : List (String × PyObj) :=
  baseContext data ++
  [("available_specialists", PyObj.list (specialist_names.map PyObj.str)),
   ("specialist_capabilities", PyObj.str (specialistCapabilities agents specialist_names))]

/-- The `+=` accumulation of previously produced specialist results inside
the delegation task string (`orchestrator.py` lines 277-278). -/
def prevResultsText : List (String × String) → String
  | [] => ""
  | p :: rest => "\n" ++ p.1 ++ ": " ++ p.2 ++ "\n" ++ prevResultsText rest

/-- The delegation task string for one specialist (`orchestrator.py` lines
269-280): original task, the plan text, all previously produced specialist
results, and the role line. -/
def specialistTask (task plan_text : String) (prev : List (String × String))
    (name : String) : String :=
  let base := "Original task: " ++ task ++ "\n\nSupervisor" ++ pyQuote ++ "s plan:\n" ++
    plan_text ++ "\n\n"
  let withPrev :=
    if prev.isEmpty then base
    else base ++ "Previous specialist results:\n" ++ prevResultsText prev
  withPrev ++ "\nYour role: Execute your part of the plan as the " ++ name ++ " specialist."

/-- Mutable state threaded through the hierarchical delegation loop. -/
structure HierState where
  agents : List (String × Agent)
  specialist_results : List (String × String)
  total_usage : Usage
  histories : List HistoryEntry
  log : List LogEntry
  calls : List (GatewayCall × Response)

/-- One delegation step (`orchestrator.py` lines 261-295).  A specialist
name absent from the agents map is silently skipped (`continue`). -/
def hierStep (env : PyEnv) (task plan_text : String) (context : List (String × PyObj))
    (name : String) (st : HierState) : HierState :=
  match dictLookup st.agents name with
  | Option.none => st
  | Option.some specialist =>
      let stask := specialistTask task plan_text st.specialist_results name
      let startEntry : LogEntry :=
        { step := "specialist_" ++ name ++ "_start", agent := name,
          input := LogIO.taskOnly stask, output := LogIO.noData }
      let r := specialist.run env stask (Option.some context)
      let completeEntry : LogEntry :=
        { step := "specialist_" ++ name ++ "_complete", agent := name,
          input := LogIO.noData, output := LogIO.result r }
      { agents := dictSet st.agents name { specialist with history := r.history },
        specialist_results := dictSet st.specialist_results name r.content,
        total_usage := st.total_usage.add r.usage,
        histories := st.histories ++ r.history,
        log := st.log ++ [startEntry, completeEntry],
        calls := st.calls ++ r.calls }

/-- The delegation loop over the configured specialists, in configured order. -/
def hierLoop (env : PyEnv) (task plan_text : String) (context : List (String × PyObj)) :
    List String → HierState → HierState
  | [], st => st
  | n :: rest, st => hierLoop env task plan_text context rest (hierStep env task plan_text context n st)

/-- The `+=` accumulation of specialist results inside the synthesis task
string (`orchestrator.py` lines 305-306). -/
def synthResultsText : List (String × String) → String
  | [] => ""
  | p :: rest => "\n" ++ p.1 ++ ":\n" ++ p.2 ++ "\n" ++ synthResultsText rest

/-- The synthesis task string assembled from the plan and the collected
specialist results (`orchestrator.py` lines 298-308). -/
def synthesisTask (task plan_text : String) (results : List (String × String)) : String :=
  "Original task: " ++ task ++ "\n\nYour plan was:\n" ++ plan_text ++
  "\n\nSpecialist results:\n" ++ synthResultsText results ++
  "\nNow synthesize these results into a final, coherent answer to the original task."

/-- Hierarchical workflow (`HierarchicalWorkflow.execute`): validates only
that the sequence has at least two names and that the supervisor (first
name) resolves; then runs planning, delegation over every configured
specialist in order, and synthesis. -/
def HierarchicalWorkflow.execute (env : PyEnv) (agents : List (String × Agent))
    (cfg : WorkflowCfg) (task : String) (data : List (String × PyObj)) :
    Except String WfResult :=
  let agent_sequence := cfg.agent_sequence.getD []
  if agent_sequence.length < 2 then
    Except.error "Hierarchical workflow requires at least supervisor + 1 specialist in agent_sequence"
  else
    match agent_sequence with
    | [] => Except.error "Hierarchical workflow requires at least supervisor + 1 specialist in agent_sequence"
    | supervisor_name :: specialist_names =>
        match dictLookup agents supervisor_name with
        | Option.none =>
            Except.error ("Supervisor agent " ++ pyQuote ++ supervisor_name ++ pyQuote ++ " not found")
        | Option.some supervisor =>
            let context := hierContext agents data specialist_names
            let ptask := planningTask task specialist_names
              (specialistCapabilities agents specialist_names)
            let planStart : LogEntry :=
              { step := "supervisor_planning", agent := supervisor_name,
                input := LogIO.taskInput ptask context, output := LogIO.noData }
            let planning_result := supervisor.run env ptask (Option.some context)
            let planComplete : LogEntry :=
              { step := "supervisor_plan_complete", agent := supervisor_name,
                input := LogIO.noData, output := LogIO.result planning_result }
            let plan_text := planning_result.content
            let agents1 := dictSet agents supervisor_name
              { supervisor with history := planning_result.history }
            let st0 : HierState :=
              { agents := agents1, specialist_results := [],
                total_usage := planning_result.usage,
                histories := planning_result.history,
                log := [planStart, planComplete],
                calls := planning_result.calls }
            let st := hierLoop env task plan_text context specialist_names st0
            let stask := synthesisTask task plan_text st.specialist_results
            let synthStart : LogEntry :=
              { step := "supervisor_synthesis_start", agent := supervisor_name,
                input := LogIO.taskOnly stask, output := LogIO.noData }
            let sup1 := match dictLookup st.agents supervisor_name with
                        | Option.some s => s
                        | Option.none => supervisor
            let final_result := sup1.run env stask (Option.some context)
            let synthComplete : LogEntry :=
              { step := "supervisor_synthesis_complete", agent := supervisor_name,
                input := LogIO.noData, output := LogIO.result final_result }
            Except.ok { result := final_result.content,
                        execution_log := st.log ++ [synthStart, synthComplete],
                        agent_history := st.histories ++ final_result.history,
                        usage := st.total_usage.add final_result.usage,
                        calls := st.calls ++ final_result.calls }

/-- Componentwise sum of the usage of a list of completions. -/
def sumUsage (l : List Response) : Usage :=
  ⟨(l.map (fun r => r.usage.input_tokens)).sum,
   (l.map (fun r => r.usage.output_tokens)).sum,
   (l.map (fun r => r.usage.total_tokens)).sum⟩

/-- All tool-call requests carried by a trace of gateway interactions, in
call order. -/
def joinedToolCalls (l : List (GatewayCall × Response)) : List ToolCallReq :=
  (l.map (fun p => p.2.tool_calls)).flatten

/-- The completion the gateway returns for the structured-finalization call
of a run (determined by the agent, its stub gateway and the run inputs). -/
def Agent.synthesisResponse (env : PyEnv) (a : Agent) (message : String)
    (context : Option (List (String × PyObj))) : Response :=
  let st := a.loopState env message context
  a.gateway st.calls.length (synthCall a st)

/-- Substring containment, as an explicit decomposition. -/
def isSubstrOf (needle hay : String) : Prop :=
  ∃ p q, hay = p ++ needle ++ q

/-- The sequential-workflow state after the first `j` agents of the
sequence have executed. -/
def seqPrefixState (env : PyEnv) (task : String) (agents : List (String × Agent))
    (data : List (String × PyObj)) (names : List String) (j : Nat) : SeqState :=
  seqLoop env task 0 (names.take j) (seqInit agents data)

/-- The hierarchical delegation state after the first `j` configured
specialists have been considered. -/
def hierPrefixState (env : PyEnv) (task plan_text : String)
    (context : List (String × PyObj)) (specs : List String) (st0 : HierState)
    (j : Nat) : HierState :=
  hierLoop env task plan_text context (specs.take j) st0

/-- A concrete runtime environment for witnesses: its JSON decoder rejects
every string (as `json.loads` does on non-JSON text). -/
def failEnv : PyEnv :=
  { jsonLoads := fun _ => Except.error "Expecting value: line 1 column 1 (char 0)",
    jsonDumps := fun _ => "null",
    jsonDumpsIndent2 := fun _ => "null",
    pyStr := fun _ => "value" }

/-- A scripted completion with no tool calls. -/
def noToolResponse (c : String) : Response :=
  { content := c, tool_calls := [], usage := ⟨1, 2, 3⟩ }

/-- A scripted tool-call request whose handling fails (no such tool). -/
def fooCall : ToolCallReq :=
  { id := Option.some "call-1", name := "foo", arguments := PyArgs.rawStr "bad" }

/-- A scripted completion carrying exactly one tool-call request. -/
def oneToolResponse : Response :=
  { content := "partial answer", tool_calls := [fooCall], usage := ⟨1, 1, 2⟩ }

/-- A stub gateway that requests one tool call on every iteration. -/
def alwaysToolStub : Nat → GatewayCall → Response := fun _ _ => oneToolResponse

/-- A stub gateway that always answers with plain content `c`. -/
def plainStub (c : String) : Nat → GatewayCall → Response := fun _ _ => noToolResponse c

/-- A stub gateway scripting one tool-call round followed by a plain answer. -/
def stepStub : Nat → GatewayCall → Response :=
  fun i _ => if i = 0 then oneToolResponse else noToolResponse "done"

/-- A minimal agent configuration without tools. -/
def plainCfg (nm : String) : AgentConfig :=
  { name := nm, system_prompt := "You are " ++ nm ++ ".", tools := [] }

/-- Concrete agent for the iteration-budget scenario: budget 1, stub always
requesting a tool call. -/
def exAgentC1 : Agent :=
  { config := { plainCfg "A" with max_iterations := 1 },
    gateway := alwaysToolStub, tool_registry := [], history := [] }

/-- Concrete agent for the error-isolation scenario: budget 2, one failing
tool round then a plain answer. -/
def exAgentC3 : Agent :=
  { config := { plainCfg "A" with max_iterations := 2 },
    gateway := stepStub, tool_registry := [], history := [] }

/-- Concrete structured-output-enabled agent with a nonzero configured
temperature. -/
def exAgentStructured : Agent :=
  { config := { plainCfg "S" with
                  temperature := Option.some 1,
                  structured_output := Option.some { enabled := true, schema := "StructuredAnalysis" } },
    gateway := plainStub "final text", tool_registry := [], history := [] }

/-- A plain concrete agent answering `c` immediately. -/
def exAgentPlain (nm c : String) : Agent :=
  { config := plainCfg nm, gateway := plainStub c, tool_registry := [], history := [] }

/-- Agents map of the hierarchical counterexample: the configured specialist
`"X"` is absent. -/
def exHAgents : List (String × Agent) := [("S", exAgentPlain "S" "PLAN")]

/-- Workflow config of the hierarchical counterexample. -/
def exHCfg : WorkflowCfg := { agent_sequence := Option.some ["S", "X"] }

/-- Agents map of the sequential scenario: A answers `"X"`, B answers `"Y"`. -/
def exSeqAgents : List (String × Agent) :=
  [("A", exAgentPlain "A" "X"), ("B", exAgentPlain "B" "Y")]

/-- Workflow config of the sequential scenario. -/
def exSeqCfg : WorkflowCfg := { agent_sequence := Option.some ["A", "B"] }

/-- Agents map of the hierarchical scenario with two specialists. -/
def exHierAgents : List (String × Agent) :=
  [("S", exAgentPlain "S" "PLAN"), ("X", exAgentPlain "X" "XOUT"),
   ("Y", exAgentPlain "Y" "YOUT")]

/-- Workflow config of the hierarchical scenario. -/
def exHierCfg : WorkflowCfg := { agent_sequence := Option.some ["S", "X", "Y"] }

/-- A registered tool that ignores its arguments and succeeds. -/
def trivialTool : ToolEntry :=
  { function := fun _ => Except.ok PyObj.pynone, schema := PyObj.pynone }

/-- An agent configuration referencing one tool named `"known"`. -/
def c9Cfg : AgentConfig := { name := "T", system_prompt := "", tools := ["known"] }

lemma execToolPhase_spec (env : PyEnv) (reg : ToolRegistry) :
    ∀ (tcs : List ToolCallReq) (msgs : List Message) (acc : List ToolCallReq),
      execToolPhase env reg tcs msgs acc =
        (msgs ++ tcs.map (fun tc => Message.tool tc.id tc.name (toolResultContent env reg tc)),
         acc ++ tcs)
  | [], msgs, acc => by simp [execToolPhase]
  | tc :: rest, msgs, acc => by
      simp [execToolPhase, execToolPhase_spec env reg rest]

lemma agentLoop_stop (env : PyEnv) (a : Agent) (ts : Option (List PyObj)) (rem : Nat)
    (st : LoopState) (h : (loopResponse a ts st).tool_calls = []) :
    agentLoop env a ts (rem + 1) st =
      afterResponse st (loopCall a ts st) (loopResponse a ts st) := by
  simp [agentLoop, h]

lemma agentLoop_go (env : PyEnv) (a : Agent) (ts : Option (List PyObj)) (rem : Nat)
    (st : LoopState) (h : (loopResponse a ts st).tool_calls ≠ []) :
    agentLoop env a ts (rem + 1) st =
      agentLoop env a ts rem (loopContinueState env a ts st) := by
  cases hl : (loopResponse a ts st).tool_calls with
  | nil => exact absurd hl h
  | cons x xs => simp [agentLoop, hl]

lemma loopContinueState_props (env : PyEnv) (a : Agent) (ts : Option (List PyObj))
    (st : LoopState) :
    (loopContinueState env a ts st).final_response = Option.some (loopResponse a ts st) ∧
    (loopContinueState env a ts st).calls =
      st.calls ++ [(loopCall a ts st, loopResponse a ts st)] ∧
    (loopContinueState env a ts st).total_usage =
      st.total_usage.add (loopResponse a ts st).usage ∧
    (loopContinueState env a ts st).all_tool_calls =
      st.all_tool_calls ++ (loopResponse a ts st).tool_calls := by
  refine ⟨rfl, rfl, rfl, ?_⟩
  simp [loopContinueState, afterResponse, execToolPhase_spec]

lemma sumUsage_concat (l : List Response) (r : Response) :
    sumUsage (l ++ [r]) = (sumUsage l).add r.usage := by
  simp [sumUsage, Usage.add]

lemma joinedToolCalls_concat (l : List (GatewayCall × Response)) (p : GatewayCall × Response) :
    joinedToolCalls (l ++ [p]) = joinedToolCalls l ++ p.2.tool_calls := by
  simp [joinedToolCalls]

lemma agentLoop_final_response (env : PyEnv) (a : Agent) (ts : Option (List PyObj)) :
    ∀ (rem : Nat) (st : LoopState),
      st.final_response = st.calls.getLast?.map Prod.snd →
      (agentLoop env a ts rem st).final_response =
        (agentLoop env a ts rem st).calls.getLast?.map Prod.snd
  | 0, st, h => h
  | rem + 1, st, h => by
      by_cases hl : (loopResponse a ts st).tool_calls = []
      · rw [agentLoop_stop env a ts rem st hl]
        simp [afterResponse]
      · rw [agentLoop_go env a ts rem st hl]
        refine agentLoop_final_response env a ts rem _ ?_
        rw [(loopContinueState_props env a ts st).1, (loopContinueState_props env a ts st).2.1]
        simp

lemma agentLoop_usage (env : PyEnv) (a : Agent) (ts : Option (List PyObj)) :
    ∀ (rem : Nat) (st : LoopState),
      st.total_usage = sumUsage (st.calls.map Prod.snd) →
      (agentLoop env a ts rem st).total_usage =
        sumUsage ((agentLoop env a ts rem st).calls.map Prod.snd)
  | 0, st, h => h
  | rem + 1, st, h => by
      by_cases hl : (loopResponse a ts st).tool_calls = []
      · rw [agentLoop_stop env a ts rem st hl]
        simp only [afterResponse, List.map_append, List.map_cons, List.map_nil]
        rw [h]
        exact (sumUsage_concat (st.calls.map Prod.snd) (loopResponse a ts st)).symm
      · rw [agentLoop_go env a ts rem st hl]
        refine agentLoop_usage env a ts rem _ ?_
        rw [(loopContinueState_props env a ts st).2.2.1, (loopContinueState_props env a ts st).2.1, h]
        simp only [List.map_append, List.map_cons, List.map_nil]
        exact (sumUsage_concat (st.calls.map Prod.snd) (loopResponse a ts st)).symm

lemma agentLoop_toolCalls (env : PyEnv) (a : Agent) (ts : Option (List PyObj)) :
    ∀ (rem : Nat) (st : LoopState),
      st.all_tool_calls = joinedToolCalls st.calls →
      (agentLoop env a ts rem st).all_tool_calls =
        joinedToolCalls (agentLoop env a ts rem st).calls
  | 0, st, h => h
  | rem + 1, st, h => by
      by_cases hl : (loopResponse a ts st).tool_calls = []
      · rw [agentLoop_stop env a ts rem st hl]
        show st.all_tool_calls = joinedToolCalls (st.calls ++ [(loopCall a ts st, loopResponse a ts st)])
        rw [joinedToolCalls_concat, hl, h, List.append_nil]
      · rw [agentLoop_go env a ts rem st hl]
        refine agentLoop_toolCalls env a ts rem _ ?_
        rw [(loopContinueState_props env a ts st).2.2.2, (loopContinueState_props env a ts st).2.1, h,
            joinedToolCalls_concat]

lemma agentLoop_calls_length (env : PyEnv) (a : Agent) (ts : Option (List PyObj))
    (h : ∀ i c, (a.gateway i c).tool_calls ≠ []) :
    ∀ (rem : Nat) (st : LoopState),
      (agentLoop env a ts rem st).calls.length = st.calls.length + rem
  | 0, st => rfl
  | rem + 1, st => by
      rw [agentLoop_go env a ts rem st (h _ _)]
      rw [agentLoop_calls_length env a ts h rem _]
      rw [(loopContinueState_props env a ts st).2.1]
      simp
      omega

/-- C9: Agent construction fails when the config references a tool absent
from the registry (before any run and hence before any gateway call), and
a successfully constructed agent resolves every configured tool name in
its registry. -/
theorem agent_init_validates_tools (cfg : AgentConfig)
    (gw : Nat → GatewayCall → Response) (reg : ToolRegistry) :
    ((∃ t, t ∈ cfg.tools ∧ dictLookup reg t = Option.none) →
        ∃ e, Agent.init cfg gw reg = Except.error e) ∧
    (∀ a, Agent.init cfg gw reg = Except.ok a →
        (∀ t, t ∈ cfg.tools → (dictLookup reg t).isSome = true) ∧
        a.config = cfg ∧ a.tool_registry = reg ∧ a.history = []) := by
  cases hf : cfg.tools.find? (fun t => (dictLookup reg t).isNone) with
  | none =>
      constructor
      · rintro ⟨t, ht, hnone⟩
        have := List.find?_eq_none.mp hf t ht
        simp [hnone] at this
      · intro a ha
        simp only [Agent.init, hf] at ha
        cases ha
        refine ⟨?_, rfl, rfl, rfl⟩
        intro t ht
        have := List.find?_eq_none.mp hf t ht
        simpa [Option.isNone_iff_eq_none, Option.isSome_iff_ne_none] using this
  | some t =>
      constructor
      · intro _
        exact ⟨"Tool " ++ pyQuote ++ t ++ pyQuote ++ " not found in registry",
          by simp [Agent.init, hf]⟩
      · intro a ha
        simp [Agent.init, hf] at ha

/-- Closed instance of the construction-validation theorem: a config
demanding the tool `"known"` is rejected on the empty registry, and with
the tool registered the constructed agent resolves every configured name. -/
theorem agent_init_validates_tools_witness :
    (∃ e, Agent.init c9Cfg alwaysToolStub ([] : ToolRegistry) = Except.error e) ∧
    (∀ t, t ∈ c9Cfg.tools →
        (dictLookup ([("known", trivialTool)] : ToolRegistry) t).isSome = true) := by
  constructor
  · exact (agent_init_validates_tools c9Cfg alwaysToolStub ([] : ToolRegistry)).1
      ⟨"known", by simp [c9Cfg], rfl⟩
  · exact ((agent_init_validates_tools c9Cfg alwaysToolStub
      ([("known", trivialTool)] : ToolRegistry)).2
      { config := c9Cfg, gateway := alwaysToolStub,
        tool_registry := [("known", trivialTool)], history := [] } rfl).1

/-- C10: a run whose context argument is the empty dict behaves exactly
like a run with no context: the initial user message is the task text
verbatim, and the whole run result coincides; the context prefix is added
only for a non-empty context dict. -/
theorem empty_context_task_verbatim (env : PyEnv) (a : Agent) (msg : String) :
    a.run env msg (Option.some []) = a.run env msg Option.none ∧
    initialMessage env msg (Option.some []) = Message.user msg ∧
    initialMessage env msg Option.none = Message.user msg ∧
    (∀ ctx : List (String × PyObj), ctx ≠ [] →
        initialMessage env msg (Option.some ctx) =
          Message.user ("Context from previous steps:\n" ++ formatContext env ctx ++
                        "\n\nTask: " ++ msg)) := by
  refine ⟨rfl, rfl, rfl, ?_⟩
  intro ctx h
  cases ctx with
  | nil => exact absurd rfl h
  | cons kv rest => rfl

/-- Closed instance of the empty-context theorem at a concrete agent and a
concrete non-empty context. -/
theorem empty_context_task_verbatim_witness :
    (exAgentC1.run failEnv "t" (Option.some []) = exAgentC1.run failEnv "t" Option.none) ∧
    initialMessage failEnv "t" (Option.some [("k", PyObj.str "v")]) =
      Message.user ("Context from previous steps:\n" ++
        formatContext failEnv [("k", PyObj.str "v")] ++ "\n\nTask: " ++ "t") := by
  refine ⟨(empty_context_task_verbatim failEnv exAgentC1 "t").1, ?_⟩
  exact (empty_context_task_verbatim failEnv exAgentC1 "t").2.2.2
    [("k", PyObj.str "v")] (by simp)

/-- C4: every usage field returned by a run is the sum of that field over
the usage of every gateway call the run made, including the structured
finalization call when one is performed. -/
theorem run_usage_sums_gateway_calls (env : PyEnv) (a : Agent) (msg : String)
    (ctx : Option (List (String × PyObj))) :
    (a.run env msg ctx).usage = sumUsage ((a.run env msg ctx).calls.map Prod.snd) := by
  have hloop := agentLoop_usage env a a.getToolSchemas a.config.max_iterations
    (initState env a msg ctx) (by simp [initState, sumUsage, Usage.zero])
  unfold Agent.run
  cases hreq : requiresStructuredOutput a.config with
  | false =>
      simp only [hreq, if_false, Bool.false_eq_true]
      exact hloop
  | true =>
      simp only [hreq, if_true, finalizeStructured]
      simp only [List.map_append, List.map_cons, List.map_nil]
      rw [show (a.loopState env msg ctx) =
        agentLoop env a a.getToolSchemas a.config.max_iterations (initState env a msg ctx) from rfl]
      rw [hloop]
      exact (sumUsage_concat _ _).symm

/-- C7: a structured-output-enabled run makes exactly one gateway call
beyond loop termination, and that call forces temperature 0 and passes no
tool schemas, regardless of the agent's configured temperature. -/
theorem structured_finalization_one_call (env : PyEnv) (a : Agent) (msg : String)
    (ctx : Option (List (String × PyObj)))
    (h : requiresStructuredOutput a.config = true) :
    (a.run env msg ctx).calls =
      (a.loopState env msg ctx).calls ++
        [(synthCall a (a.loopState env msg ctx), a.synthesisResponse env msg ctx)] ∧
    (a.run env msg ctx).calls.length = (a.loopState env msg ctx).calls.length + 1 ∧
    (synthCall a (a.loopState env msg ctx)).temperature = 0 ∧
    (synthCall a (a.loopState env msg ctx)).tools = Option.none := by
  refine ⟨?_, ?_, rfl, rfl⟩
  · unfold Agent.run
    simp only [h, if_true, finalizeStructured]
    rfl
  · unfold Agent.run
    simp only [h, if_true, finalizeStructured]
    simp

/-- Closed instance of the finalization-call theorem: the concrete
structured agent (configured temperature 1) makes its loop call plus
exactly one finalization call with temperature 0 and no tools. -/
theorem structured_finalization_one_call_witness :
    (exAgentStructured.run failEnv "t" Option.none).calls.length = 2 ∧
    (synthCall exAgentStructured (exAgentStructured.loopState failEnv "t" Option.none)).temperature = 0 ∧
    (synthCall exAgentStructured (exAgentStructured.loopState failEnv "t" Option.none)).tools = Option.none := by
  have h := structured_finalization_one_call failEnv exAgentStructured "t" Option.none rfl
  refine ⟨?_, h.2.2.1, h.2.2.2⟩
  rw [h.2.1]
  rfl

/-- C8: when the structured-finalization completion is not valid JSON, the
run still returns normally, with the finalization text as its content and
an error-marker structured payload carrying the parse error and the raw
returned text. -/
theorem structured_parse_failure_degrades (env : PyEnv) (a : Agent) (msg : String)
    (ctx : Option (List (String × PyObj))) (e : String)
    (hreq : requiresStructuredOutput a.config = true)
    (hparse : env.jsonLoads (a.synthesisResponse env msg ctx).content = Except.error e) :
    (a.run env msg ctx).content = (a.synthesisResponse env msg ctx).content ∧
    (a.run env msg ctx).structured_data =
      Option.some (StructuredData.parseError
        ("Failed to parse structured output: " ++ e)
        (a.synthesisResponse env msg ctx).content) := by
  have hsr : a.synthesisResponse env msg ctx =
      a.gateway (a.loopState env msg ctx).calls.length
        (synthCall a (a.loopState env msg ctx)) := rfl
  unfold Agent.run
  simp only [hreq, if_true, finalizeStructured]
  rw [← hsr]
  constructor
  · rfl
  · rw [hparse]

/-- Closed instance of the parse-failure theorem: with a JSON decoder that
rejects everything, the concrete structured agent returns normally with
the error-marker payload carrying the raw finalization text. -/
theorem structured_parse_failure_degrades_witness :
    (exAgentStructured.run failEnv "t" Option.none).content = "final text" ∧
    (exAgentStructured.run failEnv "t" Option.none).structured_data =
      Option.some (StructuredData.parseError
        ("Failed to parse structured output: Expecting value: line 1 column 1 (char 0)")
        "final text") := by
  have h := structured_parse_failure_degrades failEnv exAgentStructured "t" Option.none
    "Expecting value: line 1 column 1 (char 0)" rfl rfl
  exact ⟨h.1, h.2⟩


lemma run_unstructured (env : PyEnv) (a : Agent) (msg : String)
    (ctx : Option (List (String × PyObj)))
    (h : requiresStructuredOutput a.config = false) :
    (a.run env msg ctx).calls = (a.loopState env msg ctx).calls ∧
    (a.run env msg ctx).tool_calls = (a.loopState env msg ctx).all_tool_calls ∧
    (a.run env msg ctx).usage = (a.loopState env msg ctx).total_usage ∧
    (a.run env msg ctx).content =
      ((a.loopState env msg ctx).final_response.getD maxIterFallback).content := by
  unfold Agent.run
  simp only [h, Bool.false_eq_true, if_false]
  refine ⟨by trivial, by trivial, by trivial, ?_⟩
  cases (a.loopState env msg ctx).final_response <;> rfl

lemma agentLoop_two_steps (env : PyEnv) (a : Agent) (ts : Option (List PyObj)) (n : Nat)
    (st0 : LoopState)
    (h1 : (loopResponse a ts st0).tool_calls ≠ [])
    (h2 : (loopResponse a ts (loopContinueState env a ts st0)).tool_calls = []) :
    agentLoop env a ts (n + 2) st0 =
      afterResponse (loopContinueState env a ts st0)
        (loopCall a ts (loopContinueState env a ts st0))
        (loopResponse a ts (loopContinueState env a ts st0)) := by
  rw [show n + 2 = n + 1 + 1 by omega]
  rw [agentLoop_go env a ts (n + 1) st0 h1]
  exact agentLoop_stop env a ts n _ h2

/-- C3: failures while handling a requested tool call never escape the run.
First, the tool-execution phase appends exactly one tool-role message per
requested call, in the order received, each correlated by the call id and
carrying the result text; second, when handling a call raises (unknown
tool, undecodable arguments, or a raising tool body), that text is the
error-description string; third, a tool-call round — failing or not —
never ends the run: the loop proceeds to the next gateway call, and the
run returns normally with the next completion as its result. -/
theorem tool_failures_never_abort_run (env : PyEnv) (reg : ToolRegistry) :
    (∀ (tcs : List ToolCallReq) (msgs : List Message) (acc : List ToolCallReq),
        execToolPhase env reg tcs msgs acc =
          (msgs ++ tcs.map (fun tc => Message.tool tc.id tc.name (toolResultContent env reg tc)),
           acc ++ tcs)) ∧
    (∀ tc e, executeTool env reg tc.name tc.arguments = Except.error e →
        toolResultContent env reg tc = "Error executing tool: " ++ e) ∧
    (∀ (a : Agent) (msg : String) (ctx : Option (List (String × PyObj))) (n : Nat),
        a.config.max_iterations = n + 2 →
        requiresStructuredOutput a.config = false →
        (∀ c, (a.gateway 0 c).tool_calls ≠ []) →
        (∀ i c, i ≠ 0 → (a.gateway i c).tool_calls = []) →
        (a.run env msg ctx).calls.length = 2 ∧
        (a.run env msg ctx).calls.getLast?.map (fun p => p.2.content) =
          Option.some (a.run env msg ctx).content) := by
  refine ⟨execToolPhase_spec env reg, ?_, ?_⟩
  · intro tc e he
    unfold toolResultContent
    rw [he]
  · intro a msg ctx n hm hplain h0 hi
    have hlen1 : (loopContinueState env a a.getToolSchemas (initState env a msg ctx)).calls.length = 1 := by
      rw [(loopContinueState_props env a a.getToolSchemas (initState env a msg ctx)).2.1]
      rfl
    have hr1 : loopResponse a a.getToolSchemas
          (loopContinueState env a a.getToolSchemas (initState env a msg ctx)) =
        a.gateway (loopContinueState env a a.getToolSchemas (initState env a msg ctx)).calls.length
          (loopCall a a.getToolSchemas
            (loopContinueState env a a.getToolSchemas (initState env a msg ctx))) := rfl
    have hstop : (loopResponse a a.getToolSchemas
        (loopContinueState env a a.getToolSchemas (initState env a msg ctx))).tool_calls = [] := by
      rw [hr1, hlen1]
      exact hi 1 _ (by decide)
    have hloop : a.loopState env msg ctx =
        afterResponse (loopContinueState env a a.getToolSchemas (initState env a msg ctx))
          (loopCall a a.getToolSchemas
            (loopContinueState env a a.getToolSchemas (initState env a msg ctx)))
          (loopResponse a a.getToolSchemas
            (loopContinueState env a a.getToolSchemas (initState env a msg ctx))) := by
      show agentLoop env a a.getToolSchemas a.config.max_iterations (initState env a msg ctx) = _
      rw [hm]
      exact agentLoop_two_steps env a a.getToolSchemas n (initState env a msg ctx) (h0 _) hstop
    have hru := run_unstructured env a msg ctx hplain
    have hcalls : (a.run env msg ctx).calls =
        (loopContinueState env a a.getToolSchemas (initState env a msg ctx)).calls ++
          [(loopCall a a.getToolSchemas
              (loopContinueState env a a.getToolSchemas (initState env a msg ctx)),
            loopResponse a a.getToolSchemas
              (loopContinueState env a a.getToolSchemas (initState env a msg ctx)))] := by
      rw [hru.1, hloop]
      rfl
    constructor
    · rw [hcalls, List.length_append, hlen1]
      rfl
    · rw [hcalls, hru.2.2.2, hloop, List.getLast?_concat]
      rfl

/-- Closed instance of the error-isolation theorem: the concrete agent with
an empty registry and a stub scripting one failing tool round then a plain
answer finishes normally after 2 gateway calls; the failing call is
reported through the error-description text. -/
theorem tool_failures_never_abort_run_witness :
    toolResultContent failEnv ([] : ToolRegistry) fooCall =
      "Error executing tool: " ++ ("Tool " ++ pyQuote ++ "foo" ++ pyQuote ++ " not found") ∧
    (exAgentC3.run failEnv "t" Option.none).calls.length = 2 ∧
    (exAgentC3.run failEnv "t" Option.none).content = "done" := by
  have h := tool_failures_never_abort_run failEnv ([] : ToolRegistry)
  have h3 := h.2.2 exAgentC3 "t" Option.none 0 rfl rfl
    (fun c => by simp [exAgentC3, stepStub, oneToolResponse])
    (fun i c hne => by simp [exAgentC3, stepStub, hne, noToolResponse])
  refine ⟨h.2.1 fooCall ("Tool " ++ pyQuote ++ "foo" ++ pyQuote ++ " not found") rfl, h3.1, ?_⟩
  have hlast := h3.2
  rw [show (exAgentC3.run failEnv "t" Option.none).calls.getLast?.map (fun p => p.2.content) =
      Option.some "done" from rfl] at hlast
  exact ((Option.some.injEq _ _).mp hlast).symm

/-- C1 counterexample: with `max_iterations = 1` and a stub always
returning one tool call, the run makes exactly 1 gateway call and reports
the executed tool call, but its content is the final completion's text,
not the sentinel `"Maximum iterations reached"` the claim requires. -/
theorem max_iter_sentinel_counterexample :
    (exAgentC1.run failEnv "task" Option.none).calls.length = 1 ∧
    (exAgentC1.run failEnv "task" Option.none).tool_calls = [fooCall] ∧
    (exAgentC1.run failEnv "task" Option.none).content = "partial answer" ∧
    "partial answer" ≠ "Maximum iterations reached" := by
  refine ⟨rfl, rfl, rfl, by decide⟩

/-- C1 as amended: when the stub requests tool calls on every iteration,
the loop exhausts `max_iterations` (≥ 1) making exactly that many gateway
calls, the tool calls of every iteration — the final one included — are
executed and reported, and the run's content is the final iteration's
completion text; the sentinel `"Maximum iterations reached"` is returned
only when `max_iterations` is 0, in which case no gateway call is made at
all. -/
theorem max_iterations_termination (env : PyEnv) (a : Agent) (msg : String)
    (ctx : Option (List (String × PyObj)))
    (hplain : requiresStructuredOutput a.config = false) :
    (a.config.max_iterations = 0 →
        (a.run env msg ctx).content = "Maximum iterations reached" ∧
        (a.run env msg ctx).calls = [] ∧
        (a.run env msg ctx).tool_calls = []) ∧
    ((∀ i c, (a.gateway i c).tool_calls ≠ []) → 1 ≤ a.config.max_iterations →
        (a.run env msg ctx).calls.length = a.config.max_iterations ∧
        (a.run env msg ctx).calls.getLast?.map (fun p => p.2.content) =
          Option.some (a.run env msg ctx).content ∧
        (a.run env msg ctx).tool_calls = joinedToolCalls (a.run env msg ctx).calls) := by
  have hru := run_unstructured env a msg ctx hplain
  constructor
  · intro hm0
    have hls : a.loopState env msg ctx = initState env a msg ctx := by
      show agentLoop env a a.getToolSchemas a.config.max_iterations (initState env a msg ctx) = _
      rw [hm0]
      rfl
    refine ⟨?_, ?_, ?_⟩
    · rw [hru.2.2.2, hls]
      rfl
    · rw [hru.1, hls]
      rfl
    · rw [hru.2.1, hls]
      rfl
  · intro htools hpos
    have hfin := agentLoop_final_response env a a.getToolSchemas a.config.max_iterations
      (initState env a msg ctx) rfl
    have hjoin := agentLoop_toolCalls env a a.getToolSchemas a.config.max_iterations
      (initState env a msg ctx) rfl
    have hlen := agentLoop_calls_length env a a.getToolSchemas htools
      a.config.max_iterations (initState env a msg ctx)
    have hlen' : (a.loopState env msg ctx).calls.length = a.config.max_iterations := by
      show (agentLoop env a a.getToolSchemas a.config.max_iterations
        (initState env a msg ctx)).calls.length = _
      rw [hlen]
      simp [initState]
    have hne : (a.loopState env msg ctx).calls ≠ [] := by
      intro hnil
      rw [hnil] at hlen'
      simp at hlen'
      omega
    obtain ⟨p, hp⟩ := Option.isSome_iff_exists.mp (List.getLast?_isSome.mpr hne)
    have hfin' : (a.loopState env msg ctx).final_response = Option.some p.2 := by
      show (agentLoop env a a.getToolSchemas a.config.max_iterations
        (initState env a msg ctx)).final_response = _
      rw [hfin]
      show ((a.loopState env msg ctx).calls.getLast?.map Prod.snd) = _
      rw [hp]
      rfl
    refine ⟨?_, ?_, ?_⟩
    · rw [hru.1, hlen']
    · rw [hru.1, hru.2.2.2, hp, hfin']
      rfl
    · rw [hru.2.1, hru.1]
      exact hjoin

/-- Closed instance of the amended iteration-budget theorem at the concrete
budget-1 agent whose stub always requests one tool call. -/
theorem max_iterations_termination_witness :
    (exAgentC1.run failEnv "w" Option.none).calls.length =
      exAgentC1.config.max_iterations ∧
    (exAgentC1.run failEnv "w" Option.none).tool_calls =
      joinedToolCalls (exAgentC1.run failEnv "w" Option.none).calls := by
  have h := (max_iterations_termination failEnv exAgentC1 "w" Option.none rfl).2
    (fun i c => by simp [exAgentC1, alwaysToolStub, oneToolResponse]) (by decide)
  exact ⟨h.1, h.2.2⟩

/-- C2 as amended: the sequential workflow fails fast — before any agent
runs, hence before any gateway call — exactly when `agent_sequence` is
empty or contains an unresolvable name.  The hierarchical workflow only
validates that the sequence has at least two names and that the
supervisor (first name) resolves; the single-agent workflow only
validates its first name.  (Unresolvable hierarchical specialists are
silently skipped — see the counterexample.) -/
theorem workflow_sequence_validation (env : PyEnv) (agents : List (String × Agent))
    (cfg : WorkflowCfg) (task : String) (data : List (String × PyObj)) :
    (∀ r, SequentialWorkflow.execute env agents cfg task data = Except.ok r →
        cfg.agent_sequence.getD [] ≠ [] ∧
        ∀ n, n ∈ cfg.agent_sequence.getD [] → (dictLookup agents n).isSome = true) ∧
    ((cfg.agent_sequence.getD [] = [] ∨
        ∃ n, n ∈ cfg.agent_sequence.getD [] ∧ dictLookup agents n = Option.none) →
        ∃ e, SequentialWorkflow.execute env agents cfg task data = Except.error e) ∧
    (∀ r, HierarchicalWorkflow.execute env agents cfg task data = Except.ok r →
        2 ≤ (cfg.agent_sequence.getD []).length ∧
        ∀ n, (cfg.agent_sequence.getD [])[0]? = Option.some n →
          (dictLookup agents n).isSome = true) ∧
    (∀ r, SingleAgentWorkflow.execute env agents cfg task data = Except.ok r →
        ∀ n, (cfg.agent_sequence.getD ["main"])[0]? = Option.some n →
          (dictLookup agents n).isSome = true) := by
  refine ⟨?_, ?_, ?_, ?_⟩
  · intro r hok
    unfold SequentialWorkflow.execute at hok
    cases hseq : cfg.agent_sequence.getD [] with
    | nil => rw [hseq] at hok; simp at hok
    | cons hd tl =>
        rw [hseq] at hok
        simp only [List.isEmpty_cons, if_false, Bool.false_eq_true] at hok
        cases hf : (hd :: tl).find? (fun n => (dictLookup agents n).isNone) with
        | some m => rw [hf] at hok; cases hok
        | none =>
            refine ⟨by simp, ?_⟩
            intro n hn
            have := List.find?_eq_none.mp hf n hn
            simpa [Option.isNone_iff_eq_none, Option.isSome_iff_ne_none] using this
  · intro hbad
    unfold SequentialWorkflow.execute
    cases hseq : cfg.agent_sequence.getD [] with
    | nil =>
        exact ⟨"Sequential workflow requires agent_sequence in config", by simp⟩
    | cons hd tl =>
        rcases hbad with hnil | ⟨n, hn, hnone⟩
        · rw [hseq] at hnil; cases hnil
        · rw [hseq] at hn
          cases hf : (hd :: tl).find? (fun n => (dictLookup agents n).isNone) with
          | none =>
              have := List.find?_eq_none.mp hf n hn
              rw [hnone] at this
              simp at this
          | some m =>
              refine ⟨"Agent " ++ pyQuote ++ m ++ pyQuote ++ " not found", ?_⟩
              simp only [List.isEmpty_cons, if_false, Bool.false_eq_true, hf]
  · intro r hok
    unfold HierarchicalWorkflow.execute at hok
    cases hseq : cfg.agent_sequence.getD [] with
    | nil => rw [hseq] at hok; simp at hok
    | cons sup specs =>
        rw [hseq] at hok
        by_cases hlen : (sup :: specs).length < 2
        · simp only [hlen, if_true] at hok
          cases hok
        · simp only [hlen, if_false] at hok
          cases hsup : dictLookup agents sup with
          | none => rw [hsup] at hok; cases hok
          | some s =>
              refine ⟨by simpa using Nat.not_lt.mp hlen, ?_⟩
              intro n hn
              simp only [List.getElem?_cons_zero, Option.some.injEq] at hn
              rw [← hn, hsup]
              rfl
  · intro r hok
    unfold SingleAgentWorkflow.execute at hok
    cases hseq : cfg.agent_sequence.getD ["main"] with
    | nil => rw [hseq] at hok; cases hok
    | cons nm rest =>
        rw [hseq] at hok
        dsimp only at hok
        cases hnm : dictLookup agents nm with
        | none => rw [hnm] at hok; cases hok
        | some ag =>
            intro n hn
            simp only [List.getElem?_cons_zero, Option.some.injEq] at hn
            rw [← hn, hnm]
            rfl

/-- C2 counterexample: a hierarchical workflow whose `agent_sequence`
contains the unresolvable specialist `"X"` does not fail: it completes,
making 2 gateway calls (planning and synthesis), silently skipping the
unknown specialist. -/
theorem workflow_sequence_validation_counterexample :
    (HierarchicalWorkflow.execute failEnv exHAgents exHCfg "t" []).map
      (fun r => r.calls.length) = Except.ok 2 ∧
    "X" ∈ exHCfg.agent_sequence.getD [] ∧
    dictLookup exHAgents "X" = Option.none := by
  refine ⟨rfl, by decide, rfl⟩

/-- Closed instance of the amended validation theorem: an empty sequence
makes the sequential workflow fail, and a sequential run that returned
successfully had resolved every configured name. -/
theorem workflow_sequence_validation_witness :
    (∃ e, SequentialWorkflow.execute failEnv exSeqAgents
        { agent_sequence := Option.some [] } "t" [] = Except.error e) ∧
    (∀ n, n ∈ exSeqCfg.agent_sequence.getD [] →
        (dictLookup exSeqAgents n).isSome = true) := by
  constructor
  · exact (workflow_sequence_validation failEnv exSeqAgents
      { agent_sequence := Option.some [] } "t" []).2.1 (Or.inl rfl)
  · have hok : (SequentialWorkflow.execute failEnv exSeqAgents exSeqCfg "t" []).toOption.isSome = true := rfl
    cases hE : SequentialWorkflow.execute failEnv exSeqAgents exSeqCfg "t" [] with
    | error e => rw [hE] at hok; simp [Except.toOption] at hok
    | ok r => exact ((workflow_sequence_validation failEnv exSeqAgents exSeqCfg "t" []).1 r hE).2

lemma substr_here (p n q : String) : isSubstrOf n (p ++ n ++ q) := ⟨p, q, rfl⟩

lemma substr_prefix (n q : String) : isSubstrOf n (n ++ q) :=
  ⟨"", q, by simp [String.empty_append]⟩

lemma substr_suffix (p n : String) : isSubstrOf n (p ++ n) :=
  ⟨p, "", by simp [String.append_empty]⟩

lemma substr_extend_left (x n h : String) : isSubstrOf n h → isSubstrOf n (x ++ h)
  | ⟨p, q, hpq⟩ => ⟨x ++ p, q, by rw [hpq]; simp [String.append_assoc]⟩

lemma substr_extend_right (x n h : String) : isSubstrOf n h → isSubstrOf n (h ++ x)
  | ⟨p, q, hpq⟩ => ⟨p, q ++ x, by rw [hpq]; simp [String.append_assoc]⟩

lemma dictLookup_isSome_iff {α : Type} (d : List (String × α)) (n : String) :
    (dictLookup d n).isSome = true ↔ n ∈ d.map Prod.fst := by
  induction d with
  | nil => simp [dictLookup]
  | cons kv rest ih =>
      obtain ⟨k, w⟩ := kv
      by_cases hk : k = n
      · subst hk
        simp [dictLookup]
      · simp only [dictLookup, hk, if_false, List.map_cons, List.mem_cons]
        rw [ih]
        constructor
        · exact Or.inr
        · rintro (h | h)
          · exact absurd h.symm hk
          · exact h

lemma mem_keys_dictSet_old {α : Type} (d : List (String × α)) (k : String) (v : α)
    (m : String) (h : m ∈ d.map Prod.fst) : m ∈ (dictSet d k v).map Prod.fst := by
  induction d with
  | nil => simp at h
  | cons kv rest ih =>
      obtain ⟨k0, w⟩ := kv
      by_cases hk : k0 = k
      · subst hk
        simpa [dictSet] using h
      · simp only [List.map_cons, List.mem_cons] at h
        rcases h with h | h
        · simp [dictSet, hk, h]
        · simp [dictSet, hk, ih h]

lemma mem_keys_dictSet_new {α : Type} (d : List (String × α)) (k : String) (v : α) :
    k ∈ (dictSet d k v).map Prod.fst := by
  induction d with
  | nil => simp [dictSet]
  | cons kv rest ih =>
      obtain ⟨k0, w⟩ := kv
      by_cases hk : k0 = k
      · subst hk
        simp [dictSet]
      · simp [dictSet, hk, ih]

lemma dictLookup_dictSet_isSome {α : Type} (d : List (String × α)) (k : String) (v : α)
    (n : String) (h : (dictLookup d n).isSome = true) :
    (dictLookup (dictSet d k v) n).isSome = true := by
  rw [dictLookup_isSome_iff] at h ⊢
  exact mem_keys_dictSet_old d k v n h

lemma seqLoop_append (env : PyEnv) (task : String) :
    ∀ (l1 l2 : List String) (i : Nat) (st : SeqState),
      seqLoop env task i (l1 ++ l2) st =
        seqLoop env task (i + l1.length) l2 (seqLoop env task i l1 st)
  | [], l2, i, st => by simp [seqLoop]
  | hd :: tl, l2, i, st => by
      show seqLoop env task (i + 1) (tl ++ l2) (seqStep env task i hd st) =
        seqLoop env task (i + (tl.length + 1)) l2
          (seqLoop env task (i + 1) tl (seqStep env task i hd st))
      rw [seqLoop_append env task tl l2 (i + 1) (seqStep env task i hd st)]
      rw [show i + (tl.length + 1) = i + 1 + tl.length by omega]

lemma seqPrefix_succ (env : PyEnv) (task : String) (agents : List (String × Agent))
    (data : List (String × PyObj)) (names : List String) (j : Nat) (nm : String)
    (hj : names[j]? = Option.some nm) :
    seqPrefixState env task agents data names (j + 1) =
      seqStep env task j nm (seqPrefixState env task agents data names j) := by
  have hjlt : j < names.length := (List.getElem?_eq_some.mp hj).1
  have htake : names.take (j + 1) = names.take j ++ [nm] := by
    rw [List.take_succ, hj]
    rfl
  unfold seqPrefixState
  rw [htake, seqLoop_append env task (names.take j) [nm] 0 (seqInit agents data)]
  rw [show (0 : Nat) + (names.take j).length = j by
    simp [List.length_take, Nat.min_eq_left (Nat.le_of_lt hjlt)]]
  rfl

lemma seqPrefix_stable (env : PyEnv) (task : String) (agents : List (String × Agent))
    (data : List (String × PyObj)) (names : List String) (j : Nat)
    (h : names.length ≤ j) :
    seqPrefixState env task agents data names (j + 1) =
      seqPrefixState env task agents data names j := by
  unfold seqPrefixState
  rw [List.take_of_length_le (Nat.le_trans h (Nat.le_succ j)), List.take_of_length_le h]

lemma seqStep_unresolved (env : PyEnv) (task : String) (i : Nat) (name : String)
    (st : SeqState) (h : dictLookup st.agents name = Option.none) :
    seqStep env task i name st = st := by
  simp [seqStep, h]

lemma seqStep_resolved (env : PyEnv) (task : String) (i : Nat) (name : String)
    (st : SeqState) (ag : Agent) (h : dictLookup st.agents name = Option.some ag) :
    seqStep env task i name st =
      { agents := dictSet st.agents name
          { ag with history := (ag.run env (seqTask task i st.final_result)
              (Option.some st.context)).history },
        context := dictSet st.context (name ++ "_output")
          (PyObj.str (ag.run env (seqTask task i st.final_result)
            (Option.some st.context)).content),
        total_usage := st.total_usage.add
          (ag.run env (seqTask task i st.final_result) (Option.some st.context)).usage,
        histories := st.histories ++
          (ag.run env (seqTask task i st.final_result) (Option.some st.context)).history,
        log := st.log ++
          [{ step := "agent_" ++ toString (i + 1) ++ "_start", agent := name,
             input := LogIO.taskInput (seqTask task i st.final_result) st.context,
             output := LogIO.noData },
           { step := "agent_" ++ toString (i + 1) ++ "_complete", agent := name,
             input := LogIO.noData,
             output := LogIO.result (ag.run env (seqTask task i st.final_result)
               (Option.some st.context)) }],
        final_result := Option.some
          (ag.run env (seqTask task i st.final_result) (Option.some st.context)).content,
        calls := st.calls ++
          (ag.run env (seqTask task i st.final_result) (Option.some st.context)).calls } := by
  simp [seqStep, h]

lemma seqPrefix_invariants (env : PyEnv) (task : String) (agents : List (String × Agent))
    (data : List (String × PyObj)) (names : List String)
    (hres : ∀ n ∈ names, (dictLookup agents n).isSome = true) :
    ∀ j, j ≤ names.length →
      (seqPrefixState env task agents data names j).log.length = 2 * j ∧
      (∀ n ∈ names,
        (dictLookup (seqPrefixState env task agents data names j).agents n).isSome = true) ∧
      (∀ i nm, i < j → names[i]? = Option.some nm →
        (nm ++ "_output") ∈
          (seqPrefixState env task agents data names j).context.map Prod.fst) := by
  intro j
  induction j with
  | zero =>
      intro _
      refine ⟨rfl, ?_, ?_⟩
      · intro n hn
        exact hres n hn
      · intro i nm hi
        exact absurd hi (Nat.not_lt_zero i)
  | succ j ih =>
      intro hle
      have hjlt : j < names.length := Nat.lt_of_succ_le hle
      have ihh := ih (Nat.le_of_lt hjlt)
      have hj : names[j]? = Option.some names[j] := List.getElem?_eq_getElem hjlt
      obtain ⟨ag, hag⟩ := Option.isSome_iff_exists.mp
        (ihh.2.1 names[j] (List.getElem_mem hjlt))
      have hstep := seqPrefix_succ env task agents data names j names[j] hj
      rw [hstep, seqStep_resolved env task j names[j]
        (seqPrefixState env task agents data names j) ag hag]
      refine ⟨?_, ?_, ?_⟩
      · simp only [List.length_append, ihh.1]
        simp
        omega
      · intro n hn
        exact dictLookup_dictSet_isSome _ _ _ n (ihh.2.1 n hn)
      · intro i nm hi hnm
        rcases Nat.lt_succ_iff_lt_or_eq.mp hi with hlt | heq
        · exact mem_keys_dictSet_old _ _ _ _ (ihh.2.2 i nm hlt hnm)
        · subst heq
          rw [hj] at hnm
          cases hnm
          exact mem_keys_dictSet_new _ _ _

lemma seqPrefix_log_mono (env : PyEnv) (task : String) (agents : List (String × Agent))
    (data : List (String × PyObj)) (names : List String) :
    ∀ j j2, j ≤ j2 →
      ∃ suff, (seqPrefixState env task agents data names j2).log =
        (seqPrefixState env task agents data names j).log ++ suff := by
  intro j j2 hle
  induction j2, hle using Nat.le_induction with
  | base => exact ⟨[], by simp⟩
  | succ j2 hle2 ih =>
      obtain ⟨suff, hsuff⟩ := ih
      by_cases hlt : j2 < names.length
      · have hj : names[j2]? = Option.some names[j2] := List.getElem?_eq_getElem hlt
        rw [seqPrefix_succ env task agents data names j2 names[j2] hj]
        cases hag : dictLookup (seqPrefixState env task agents data names j2).agents names[j2] with
        | none =>
            rw [seqStep_unresolved env task j2 names[j2] _ hag]
            exact ⟨suff, hsuff⟩
        | some ag =>
            rw [seqStep_resolved env task j2 names[j2] _ ag hag]
            simp only [hsuff, List.append_assoc]
            exact ⟨_, rfl⟩
      · rw [seqPrefix_stable env task agents data names j2 (Nat.le_of_not_lt hlt)]
        exact ⟨suff, hsuff⟩

lemma seqPrefix_keys_mono (env : PyEnv) (task : String) (agents : List (String × Agent))
    (data : List (String × PyObj)) (names : List String) :
    ∀ j j2, j ≤ j2 → ∀ k,
      k ∈ (seqPrefixState env task agents data names j).context.map Prod.fst →
      k ∈ (seqPrefixState env task agents data names j2).context.map Prod.fst := by
  intro j j2 hle
  induction j2, hle using Nat.le_induction with
  | base => exact fun k hk => hk
  | succ j2 hle2 ih =>
      intro k hk
      by_cases hlt : j2 < names.length
      · have hj : names[j2]? = Option.some names[j2] := List.getElem?_eq_getElem hlt
        rw [seqPrefix_succ env task agents data names j2 names[j2] hj]
        cases hag : dictLookup (seqPrefixState env task agents data names j2).agents names[j2] with
        | none =>
            rw [seqStep_unresolved env task j2 names[j2] _ hag]
            exact ih k hk
        | some ag =>
            rw [seqStep_resolved env task j2 names[j2] _ ag hag]
            exact mem_keys_dictSet_old _ _ _ _ (ih k hk)
      · rw [seqPrefix_stable env task agents data names j2 (Nat.le_of_not_lt hlt)]
        exact ih k hk

lemma seqPrefix_step_data (env : PyEnv) (task : String) (agents : List (String × Agent))
    (data : List (String × PyObj)) (names : List String)
    (hres : ∀ n ∈ names, (dictLookup agents n).isSome = true)
    (j : Nat) (hjlt : j < names.length) :
    ∃ res : RunResult,
      (seqPrefixState env task agents data names (j + 1)).log =
        (seqPrefixState env task agents data names j).log ++
          [{ step := "agent_" ++ toString (j + 1) ++ "_start", agent := names[j],
             input := LogIO.taskInput
               (seqTask task j (seqPrefixState env task agents data names j).final_result)
               (seqPrefixState env task agents data names j).context,
             output := LogIO.noData },
           { step := "agent_" ++ toString (j + 1) ++ "_complete", agent := names[j],
             input := LogIO.noData, output := LogIO.result res }] ∧
      (seqPrefixState env task agents data names (j + 1)).final_result =
        Option.some res.content ∧
      (seqPrefixState env task agents data names (j + 1)).context =
        dictSet (seqPrefixState env task agents data names j).context
          (names[j] ++ "_output") (PyObj.str res.content) := by
  have hj : names[j]? = Option.some names[j] := List.getElem?_eq_getElem hjlt
  obtain ⟨ag, hag⟩ := Option.isSome_iff_exists.mp
    ((seqPrefix_invariants env task agents data names hres j (Nat.le_of_lt hjlt)).2.1
      names[j] (List.getElem_mem hjlt))
  refine ⟨ag.run env (seqTask task j
      (seqPrefixState env task agents data names j).final_result)
      (Option.some (seqPrefixState env task agents data names j).context), ?_, ?_, ?_⟩
  · rw [seqPrefix_succ env task agents data names j names[j] hj,
        seqStep_resolved env task j names[j] _ ag hag]
  · rw [seqPrefix_succ env task agents data names j names[j] hj,
        seqStep_resolved env task j names[j] _ ag hag]
  · rw [seqPrefix_succ env task agents data names j names[j] hj,
        seqStep_resolved env task j names[j] _ ag hag]

lemma seqLog_entry (env : PyEnv) (task : String) (agents : List (String × Agent))
    (data : List (String × PyObj)) (names : List String)
    (hres : ∀ n ∈ names, (dictLookup agents n).isSome = true)
    (j : Nat) (hjlt : j < names.length) :
    ∃ res : RunResult,
      (seqPrefixState env task agents data names names.length).log[2*j]? =
        Option.some
          { step := "agent_" ++ toString (j+1) ++ "_start", agent := names[j],
            input := LogIO.taskInput
              (seqTask task j (seqPrefixState env task agents data names j).final_result)
              (seqPrefixState env task agents data names j).context,
            output := LogIO.noData } ∧
      (seqPrefixState env task agents data names names.length).log[2*j+1]? =
        Option.some
          { step := "agent_" ++ toString (j+1) ++ "_complete", agent := names[j],
            input := LogIO.noData, output := LogIO.result res } ∧
      (seqPrefixState env task agents data names (j+1)).final_result =
        Option.some res.content := by
  obtain ⟨res, hlog, hfin, hctx⟩ := seqPrefix_step_data env task agents data names hres j hjlt
  obtain ⟨suff, hsuff⟩ := seqPrefix_log_mono env task agents data names (j+1) names.length
    (Nat.succ_le_of_lt hjlt)
  have hlen : (seqPrefixState env task agents data names j).log.length = 2*j :=
    (seqPrefix_invariants env task agents data names hres j (Nat.le_of_lt hjlt)).1
  refine ⟨res, ?_, ?_, hfin⟩
  · rw [hsuff, hlog, List.append_assoc,
        List.getElem?_append_right (Nat.le_of_eq hlen), hlen, Nat.sub_self]
    rfl
  · rw [hsuff, hlog, List.append_assoc,
        List.getElem?_append_right (by omega : (seqPrefixState env task agents data names j).log.length ≤ 2*j+1),
        hlen, show 2*j+1 - 2*j = 1 by omega]
    simp

lemma seqExecute_ok_inv (env : PyEnv) (agents : List (String × Agent)) (cfg : WorkflowCfg)
    (task : String) (data : List (String × PyObj)) (r : WfResult)
    (hok : SequentialWorkflow.execute env agents cfg task data = Except.ok r) :
    (∀ n ∈ cfg.agent_sequence.getD [], (dictLookup agents n).isSome = true) ∧
    r.execution_log =
      (seqPrefixState env task agents data (cfg.agent_sequence.getD [])
        (cfg.agent_sequence.getD []).length).log := by
  unfold SequentialWorkflow.execute at hok
  cases hseq : cfg.agent_sequence.getD [] with
  | nil => rw [hseq] at hok; simp at hok
  | cons hd tl =>
      rw [hseq] at hok
      simp only [List.isEmpty_cons, Bool.false_eq_true, if_false] at hok
      cases hf : (hd :: tl).find? (fun n => (dictLookup agents n).isNone) with
      | some m => rw [hf] at hok; cases hok
      | none =>
          rw [hf] at hok
          constructor
          · intro n hn
            have := List.find?_eq_none.mp hf n hn
            simpa [Option.isNone_iff_eq_none, Option.isSome_iff_ne_none] using this
          · cases hok
            show _ = (seqPrefixState env task agents data (hd :: tl) (hd :: tl).length).log
            unfold seqPrefixState
            rw [List.take_length]

lemma mem_dictSet_self {α : Type} (d : List (String × α)) (k : String) (v : α) :
    (k, v) ∈ dictSet d k v := by
  induction d with
  | nil => simp [dictSet]
  | cons kv rest ih =>
      obtain ⟨k0, w⟩ := kv
      by_cases hk : k0 = k
      · subst hk
        simp [dictSet]
      · simp [dictSet, hk, ih]

lemma mem_dictSet_preserve {α : Type} (d : List (String × α)) (k0 : String) (v0 : α)
    (k : String) (v : α) (hne : k0 ≠ k) (h : (k0, v0) ∈ d) : (k0, v0) ∈ dictSet d k v := by
  induction d with
  | nil => simp at h
  | cons kv rest ih =>
      obtain ⟨k1, w⟩ := kv
      by_cases hk : k1 = k
      · subst hk
        rcases List.mem_cons.mp h with h | h
        · cases h
          exact absurd rfl hne
        · simp [dictSet, h]
      · rcases List.mem_cons.mp h with h | h
        · simp [dictSet, hk, h]
        · simp [dictSet, hk, ih h]

lemma string_append_right_cancel (a b s : String) (h : a ++ s = b ++ s) : a = b := by
  have hd : a.data ++ s.data = b.data ++ s.data := by
    have := congrArg String.data h
    simpa [String.data_append] using this
  exact String.ext (List.append_cancel_right hd)

lemma seqValue_threading (env : PyEnv) (task : String) (agents : List (String × Agent))
    (data : List (String × PyObj)) (names : List String)
    (hres : ∀ n ∈ names, (dictLookup agents n).isSome = true)
    (i j : Nat) (hij : i < j) (hjle : j ≤ names.length)
    (hlast : ∀ i2, i < i2 → i2 < j → names[i2]? ≠ Option.some names[i]) :
    ∃ res : RunResult,
      (seqPrefixState env task agents data names names.length).log[2*i+1]? =
        Option.some
          { step := "agent_" ++ toString (i+1) ++ "_complete", agent := names[i],
            input := LogIO.noData, output := LogIO.result res } ∧
      (names[i] ++ "_output", PyObj.str res.content) ∈
        (seqPrefixState env task agents data names j).context := by
  have hilt : i < names.length := Nat.lt_of_lt_of_le hij hjle
  obtain ⟨res, hlogstep, hfin, hctx⟩ :=
    seqPrefix_step_data env task agents data names hres i hilt
  have hlen : (seqPrefixState env task agents data names i).log.length = 2*i :=
    (seqPrefix_invariants env task agents data names hres i (Nat.le_of_lt hilt)).1
  refine ⟨res, ?_, ?_⟩
  · obtain ⟨suff, hsuff⟩ := seqPrefix_log_mono env task agents data names (i+1) names.length
      (Nat.succ_le_of_lt hilt)
    rw [hsuff, hlogstep, List.append_assoc,
        List.getElem?_append_right
          (by omega : (seqPrefixState env task agents data names i).log.length ≤ 2*i+1),
        hlen, show 2*i+1 - 2*i = 1 by omega]
    simp
  · have hbase : (names[i] ++ "_output", PyObj.str res.content) ∈
        (seqPrefixState env task agents data names (i+1)).context := by
      rw [hctx]
      exact mem_dictSet_self _ _ _
    have hstepmem : ∀ j2, i + 1 ≤ j2 → (j2 ≤ j →
        (names[i] ++ "_output", PyObj.str res.content) ∈
          (seqPrefixState env task agents data names j2).context) := by
      intro j2 h1
      induction j2, h1 using Nat.le_induction with
      | base => exact fun _ => hbase
      | succ j2 hle2 ih =>
          intro h2
          have hj2j : j2 < j := by omega
          have ihm := ih (by omega)
          have hj2lt : j2 < names.length := by omega
          have hj2 : names[j2]? = Option.some names[j2] := List.getElem?_eq_getElem hj2lt
          rw [seqPrefix_succ env task agents data names j2 names[j2] hj2]
          obtain ⟨ag, hag⟩ := Option.isSome_iff_exists.mp
            ((seqPrefix_invariants env task agents data names hres j2
              (Nat.le_of_lt hj2lt)).2.1 names[j2] (List.getElem_mem hj2lt))
          rw [seqStep_resolved env task j2 names[j2] _ ag hag]
          have hnames : names[j2] ≠ names[i] := by
            intro he
            exact hlast j2 (by omega) hj2j (by rw [hj2, he])
          refine mem_dictSet_preserve _ _ _ _ _ ?_ ihm
          intro hke
          exact hnames (string_append_right_cancel _ _ _ hke).symm
    exact hstepmem j (by omega) (Nat.le_refl j)


/-- C5: in a successful sequential-workflow execution, the log records one
start/complete pair per agent in order; agent 0 receives the original task
with the base context; the context snapshot handed to agent j contains a
`<name>_output` key for every prior agent and context keys only grow along
the sequence; for j > 0 the task string handed to agent j contains the
previous agent's returned content and the original task as substrings; and
the context entry stored under `<name>_output` carries exactly the content
that agent's (most recent prior) run returned, as logged in its complete
entry. -/
theorem seq_context_and_task_threading (env : PyEnv) (agents : List (String × Agent))
    (cfg : WorkflowCfg) (task : String) (data : List (String × PyObj)) (r : WfResult)
    (hok : SequentialWorkflow.execute env agents cfg task data = Except.ok r) :
    r.execution_log.length = 2 * (cfg.agent_sequence.getD []).length ∧
    (∀ j nm, (cfg.agent_sequence.getD [])[j]? = Option.some nm →
        ∃ t c res,
          r.execution_log[2*j]? =
            Option.some
              { step := "agent_" ++ toString (j+1) ++ "_start", agent := nm,
                input := LogIO.taskInput t c, output := LogIO.noData } ∧
          r.execution_log[2*j+1]? =
            Option.some
              { step := "agent_" ++ toString (j+1) ++ "_complete", agent := nm,
                input := LogIO.noData, output := LogIO.result res } ∧
          (j = 0 → t = task ∧ c = baseContext data) ∧
          (∀ i pnm, i < j → (cfg.agent_sequence.getD [])[i]? = Option.some pnm →
              (pnm ++ "_output") ∈ c.map Prod.fst)) ∧
    (∀ i j si sj ai aj ti ci tj cj, i ≤ j →
        r.execution_log[2*i]? =
          Option.some { step := si, agent := ai, input := LogIO.taskInput ti ci,
                        output := LogIO.noData } →
        r.execution_log[2*j]? =
          Option.some { step := sj, agent := aj, input := LogIO.taskInput tj cj,
                        output := LogIO.noData } →
        ∀ k, k ∈ ci.map Prod.fst → k ∈ cj.map Prod.fst) ∧
    (∀ j s a t c s2 a2 res, 0 < j →
        r.execution_log[2*j]? =
          Option.some { step := s, agent := a, input := LogIO.taskInput t c,
                        output := LogIO.noData } →
        r.execution_log[2*j-1]? =
          Option.some { step := s2, agent := a2, input := LogIO.noData,
                        output := LogIO.result res } →
        isSubstrOf res.content t ∧ isSubstrOf task t) ∧
    (∀ j sx ax t c, r.execution_log[2*j]? =
        Option.some { step := sx, agent := ax, input := LogIO.taskInput t c,
                      output := LogIO.noData } →
      ∀ i pnm pres s2 a2, i < j →
        (cfg.agent_sequence.getD [])[i]? = Option.some pnm →
        (∀ i2, i < i2 → i2 < j →
          (cfg.agent_sequence.getD [])[i2]? ≠ Option.some pnm) →
        r.execution_log[2*i+1]? =
          Option.some { step := s2, agent := a2, input := LogIO.noData,
                        output := LogIO.result pres } →
        (pnm ++ "_output", PyObj.str pres.content) ∈ c) := by
  obtain ⟨hres, hlog⟩ := seqExecute_ok_inv env agents cfg task data r hok
  have hJlen : (seqPrefixState env task agents data (cfg.agent_sequence.getD [])
      (cfg.agent_sequence.getD []).length).log.length =
      2 * (cfg.agent_sequence.getD []).length :=
    (seqPrefix_invariants env task agents data (cfg.agent_sequence.getD []) hres
      (cfg.agent_sequence.getD []).length (Nat.le_refl _)).1
  refine ⟨?_, ?_, ?_, ?_, ?_⟩
  · rw [hlog]
    exact hJlen
  · intro j nm hj
    have hjlt : j < (cfg.agent_sequence.getD []).length := (List.getElem?_eq_some.mp hj).1
    have hnm : (cfg.agent_sequence.getD [])[j] = nm := by
      have h2 := List.getElem?_eq_getElem hjlt
      rw [hj] at h2
      exact ((Option.some.injEq _ _).mp h2).symm
    obtain ⟨res, hstart, hcompl, hfin⟩ :=
      seqLog_entry env task agents data (cfg.agent_sequence.getD []) hres j hjlt
    refine ⟨seqTask task j (seqPrefixState env task agents data
        (cfg.agent_sequence.getD []) j).final_result,
      (seqPrefixState env task agents data (cfg.agent_sequence.getD []) j).context,
      res, ?_, ?_, ?_, ?_⟩
    · rw [hlog, hstart, hnm]
    · rw [hlog, hcompl, hnm]
    · intro h0
      subst h0
      exact ⟨rfl, rfl⟩
    · intro i pnm hij hpnm
      exact (seqPrefix_invariants env task agents data (cfg.agent_sequence.getD []) hres j
        (Nat.le_of_lt hjlt)).2.2 i pnm hij hpnm
  · intro i j si sj ai aj ti ci tj cj hij hstarti hstartj
    rw [hlog] at hstarti hstartj
    have hilt : i < (cfg.agent_sequence.getD []).length := by
      have := (List.getElem?_eq_some.mp hstarti).1
      omega
    have hjlt : j < (cfg.agent_sequence.getD []).length := by
      have := (List.getElem?_eq_some.mp hstartj).1
      omega
    obtain ⟨resi, hsi, hci2, hfi⟩ :=
      seqLog_entry env task agents data (cfg.agent_sequence.getD []) hres i hilt
    obtain ⟨resj, hsj, hcj2, hfj⟩ :=
      seqLog_entry env task agents data (cfg.agent_sequence.getD []) hres j hjlt
    rw [hsi] at hstarti
    rw [hsj] at hstartj
    simp only [Option.some.injEq, LogEntry.mk.injEq, LogIO.taskInput.injEq, and_true,
      true_and] at hstarti hstartj
    intro k hk
    rw [← hstartj.2.2.2]
    refine seqPrefix_keys_mono env task agents data (cfg.agent_sequence.getD []) i j hij k ?_
    rw [hstarti.2.2.2]
    exact hk
  · intro j s a t c s2 a2 res hj0 hstart hcompl
    rw [hlog] at hstart hcompl
    have hjlt : j < (cfg.agent_sequence.getD []).length := by
      have := (List.getElem?_eq_some.mp hstart).1
      omega
    have hplt : j - 1 < (cfg.agent_sequence.getD []).length := by omega
    obtain ⟨resj, hsj, hcj2, hfj⟩ :=
      seqLog_entry env task agents data (cfg.agent_sequence.getD []) hres j hjlt
    obtain ⟨resp, hsp, hcp, hfinp⟩ :=
      seqLog_entry env task agents data (cfg.agent_sequence.getD []) hres (j-1) hplt
    rw [hsj] at hstart
    rw [show 2*j-1 = 2*(j-1)+1 by omega] at hcompl
    rw [hcp] at hcompl
    simp only [Option.some.injEq, LogEntry.mk.injEq, LogIO.taskInput.injEq,
      LogIO.result.injEq, and_true, true_and] at hstart hcompl
    have hfin : (seqPrefixState env task agents data (cfg.agent_sequence.getD [])
        j).final_result = Option.some resp.content := by
      have h3 := hfinp
      rw [show j - 1 + 1 = j by omega] at h3
      exact h3
    have ht2 : t = "Previous agent output: " ++ resp.content ++
        "\n\nOriginal task: " ++ task := by
      rw [← hstart.2.2.1]
      unfold seqTask
      rw [if_neg (by omega : ¬ j = 0), hfin]
      rfl
    constructor
    · rw [← hcompl.2.2, ht2]
      exact ⟨"Previous agent output: ", "\n\nOriginal task: " ++ task,
        by simp [String.append_assoc]⟩
    · rw [ht2]
      exact substr_suffix _ task
  · intro j sx ax t c hstart i pnm pres s2 a2 hij hpnm hlast hpres
    rw [hlog] at hstart hpres
    have hjlt : j < (cfg.agent_sequence.getD []).length := by
      have := (List.getElem?_eq_some.mp hstart).1
      omega
    have hilt : i < (cfg.agent_sequence.getD []).length := Nat.lt_trans hij hjlt
    have hpnm2 : (cfg.agent_sequence.getD [])[i] = pnm := by
      have h2 := List.getElem?_eq_getElem hilt
      rw [hpnm] at h2
      exact ((Option.some.injEq _ _).mp h2).symm
    obtain ⟨resj, hsj, hcj2, hfj⟩ :=
      seqLog_entry env task agents data (cfg.agent_sequence.getD []) hres j hjlt
    rw [hsj] at hstart
    simp only [Option.some.injEq, LogEntry.mk.injEq, LogIO.taskInput.injEq, and_true,
      true_and] at hstart
    have hlast2 : ∀ i2, i < i2 → i2 < j →
        (cfg.agent_sequence.getD [])[i2]? ≠
          Option.some (cfg.agent_sequence.getD [])[i] := by
      intro i2 ha hb
      rw [hpnm2]
      exact hlast i2 ha hb
    obtain ⟨res, hentry, hmem⟩ := seqValue_threading env task agents data
      (cfg.agent_sequence.getD []) hres i j hij (Nat.le_of_lt hjlt) hlast2
    rw [hentry] at hpres
    simp only [Option.some.injEq, LogEntry.mk.injEq, LogIO.result.injEq, and_true,
      true_and] at hpres
    rw [← hstart.2.2.2, ← hpnm2, ← hpres.2.2]
    exact hmem

lemma prevResultsText_contains : ∀ (prev : List (String × String)) (k v : String),
    (k, v) ∈ prev → isSubstrOf v (prevResultsText prev)
  | [], _, _, h => absurd h (List.not_mem_nil _)
  | p :: rest, k, v, h => by
      rcases List.mem_cons.mp h with h | h
      · rw [show p = (k, v) from h.symm]
        exact ⟨"\n" ++ k ++ ": ", "\n" ++ prevResultsText rest,
          by simp [prevResultsText, String.append_assoc]⟩
      · exact substr_extend_left _ _ _ (prevResultsText_contains rest k v h)

lemma specialistTask_contains (task plan : String) (prev : List (String × String))
    (name : String) :
    isSubstrOf task (specialistTask task plan prev name) ∧
    isSubstrOf plan (specialistTask task plan prev name) ∧
    (∀ k v, (k, v) ∈ prev → isSubstrOf v (specialistTask task plan prev name)) := by
  have hbase_task : isSubstrOf task
      ("Original task: " ++ task ++ "\n\nSupervisor" ++ pyQuote ++ "s plan:\n" ++
        plan ++ "\n\n") :=
    ⟨"Original task: ", "\n\nSupervisor" ++ pyQuote ++ "s plan:\n" ++ plan ++ "\n\n",
      by simp [String.append_assoc]⟩
  have hbase_plan : isSubstrOf plan
      ("Original task: " ++ task ++ "\n\nSupervisor" ++ pyQuote ++ "s plan:\n" ++
        plan ++ "\n\n") :=
    ⟨"Original task: " ++ task ++ "\n\nSupervisor" ++ pyQuote ++ "s plan:\n", "\n\n",
      by simp [String.append_assoc]⟩
  by_cases hp : prev.isEmpty
  · have hw : specialistTask task plan prev name =
        ("Original task: " ++ task ++ "\n\nSupervisor" ++ pyQuote ++ "s plan:\n" ++
          plan ++ "\n\n") ++
        "\nYour role: Execute your part of the plan as the " ++ name ++ " specialist." := by
      simp only [specialistTask, hp, if_true]
    refine ⟨?_, ?_, ?_⟩
    · rw [hw]
      exact substr_extend_right _ _ _ (substr_extend_right _ _ _
        (substr_extend_right _ _ _ hbase_task))
    · rw [hw]
      exact substr_extend_right _ _ _ (substr_extend_right _ _ _
        (substr_extend_right _ _ _ hbase_plan))
    · intro k v hkv
      rw [List.isEmpty_iff] at hp
      rw [hp] at hkv
      simp at hkv
  · have hw : specialistTask task plan prev name =
        (("Original task: " ++ task ++ "\n\nSupervisor" ++ pyQuote ++ "s plan:\n" ++
          plan ++ "\n\n") ++ "Previous specialist results:\n" ++ prevResultsText prev) ++
        "\nYour role: Execute your part of the plan as the " ++ name ++ " specialist." := by
      simp only [specialistTask, hp, if_false, Bool.false_eq_true]
    refine ⟨?_, ?_, ?_⟩
    · rw [hw]
      exact substr_extend_right _ _ _ (substr_extend_right _ _ _
        (substr_extend_right _ _ _ (substr_extend_right _ _ _
          (substr_extend_right _ _ _ hbase_task))))
    · rw [hw]
      exact substr_extend_right _ _ _ (substr_extend_right _ _ _
        (substr_extend_right _ _ _ (substr_extend_right _ _ _
          (substr_extend_right _ _ _ hbase_plan))))
    · intro k v hkv
      rw [hw]
      refine substr_extend_right _ _ _ (substr_extend_right _ _ _
        (substr_extend_right _ _ _ (substr_extend_left _ _ _
          (prevResultsText_contains prev k v hkv))))

lemma hierLoop_append (env : PyEnv) (task plan : String) (ctx : List (String × PyObj)) :
    ∀ (l1 l2 : List String) (st : HierState),
      hierLoop env task plan ctx (l1 ++ l2) st =
        hierLoop env task plan ctx l2 (hierLoop env task plan ctx l1 st)
  | [], _, _ => rfl
  | hd :: tl, l2, st => hierLoop_append env task plan ctx tl l2 (hierStep env task plan ctx hd st)

lemma hierPrefix_succ (env : PyEnv) (task plan : String) (ctx : List (String × PyObj))
    (specs : List String) (st0 : HierState) (j : Nat) (nm : String)
    (hj : specs[j]? = Option.some nm) :
    hierPrefixState env task plan ctx specs st0 (j + 1) =
      hierStep env task plan ctx nm (hierPrefixState env task plan ctx specs st0 j) := by
  have htake : specs.take (j + 1) = specs.take j ++ [nm] := by
    rw [List.take_succ, hj]
    rfl
  unfold hierPrefixState
  rw [htake, hierLoop_append]
  rfl

lemma hierPrefix_stable (env : PyEnv) (task plan : String) (ctx : List (String × PyObj))
    (specs : List String) (st0 : HierState) (j : Nat) (h : specs.length ≤ j) :
    hierPrefixState env task plan ctx specs st0 (j + 1) =
      hierPrefixState env task plan ctx specs st0 j := by
  unfold hierPrefixState
  rw [List.take_of_length_le (Nat.le_trans h (Nat.le_succ j)), List.take_of_length_le h]

lemma hierStep_unresolved (env : PyEnv) (task plan : String) (ctx : List (String × PyObj))
    (name : String) (st : HierState) (h : dictLookup st.agents name = Option.none) :
    hierStep env task plan ctx name st = st := by
  simp [hierStep, h]

lemma hierStep_resolved (env : PyEnv) (task plan : String) (ctx : List (String × PyObj))
    (name : String) (st : HierState) (ag : Agent)
    (h : dictLookup st.agents name = Option.some ag) :
    hierStep env task plan ctx name st =
      { agents := dictSet st.agents name
          { ag with history := (ag.run env
              (specialistTask task plan st.specialist_results name)
              (Option.some ctx)).history },
        specialist_results := dictSet st.specialist_results name
          (ag.run env (specialistTask task plan st.specialist_results name)
            (Option.some ctx)).content,
        total_usage := st.total_usage.add
          (ag.run env (specialistTask task plan st.specialist_results name)
            (Option.some ctx)).usage,
        histories := st.histories ++
          (ag.run env (specialistTask task plan st.specialist_results name)
            (Option.some ctx)).history,
        log := st.log ++
          [{ step := "specialist_" ++ name ++ "_start", agent := name,
             input := LogIO.taskOnly
               (specialistTask task plan st.specialist_results name),
             output := LogIO.noData },
           { step := "specialist_" ++ name ++ "_complete", agent := name,
             input := LogIO.noData,
             output := LogIO.result (ag.run env
               (specialistTask task plan st.specialist_results name)
               (Option.some ctx)) }],
        calls := st.calls ++
          (ag.run env (specialistTask task plan st.specialist_results name)
            (Option.some ctx)).calls } := by
  simp [hierStep, h]

lemma hierPrefix_log_mono (env : PyEnv) (task plan : String) (ctx : List (String × PyObj))
    (specs : List String) (st0 : HierState) :
    ∀ j j2, j ≤ j2 →
      ∃ suff, (hierPrefixState env task plan ctx specs st0 j2).log =
        (hierPrefixState env task plan ctx specs st0 j).log ++ suff := by
  intro j j2 hle
  induction j2, hle using Nat.le_induction with
  | base => exact ⟨[], by simp⟩
  | succ j2 hle2 ih =>
      obtain ⟨suff, hsuff⟩ := ih
      by_cases hlt : j2 < specs.length
      · have hj : specs[j2]? = Option.some specs[j2] := List.getElem?_eq_getElem hlt
        rw [hierPrefix_succ env task plan ctx specs st0 j2 specs[j2] hj]
        cases hag : dictLookup (hierPrefixState env task plan ctx specs st0 j2).agents specs[j2] with
        | none =>
            rw [hierStep_unresolved env task plan ctx specs[j2] _ hag]
            exact ⟨suff, hsuff⟩
        | some ag =>
            rw [hierStep_resolved env task plan ctx specs[j2] _ ag hag]
            simp only [hsuff, List.append_assoc]
            exact ⟨_, rfl⟩
      · rw [hierPrefix_stable env task plan ctx specs st0 j2 (Nat.le_of_not_lt hlt)]
        exact ⟨suff, hsuff⟩

lemma hierPrefix_invariants (env : PyEnv) (task plan : String) (ctx : List (String × PyObj))
    (specs : List String) (st0 : HierState)
    (hres : ∀ n ∈ specs, (dictLookup st0.agents n).isSome = true)
    (hnd : specs.Nodup) :
    ∀ j, j ≤ specs.length →
      (hierPrefixState env task plan ctx specs st0 j).log.length = st0.log.length + 2 * j ∧
      (∀ n ∈ specs,
        (dictLookup (hierPrefixState env task plan ctx specs st0 j).agents n).isSome = true) ∧
      (∀ i, i < j → ∀ hi : i < specs.length, ∃ res : RunResult,
        (specs[i], res.content) ∈
          (hierPrefixState env task plan ctx specs st0 j).specialist_results ∧
        (hierPrefixState env task plan ctx specs st0 (i+1)).log[st0.log.length + 2*i + 1]? =
          Option.some
            { step := "specialist_" ++ specs[i] ++ "_complete", agent := specs[i],
              input := LogIO.noData, output := LogIO.result res }) := by
  intro j
  induction j with
  | zero =>
      intro _
      refine ⟨rfl, ?_, ?_⟩
      · intro n hn
        exact hres n hn
      · intro i hi
        exact absurd hi (Nat.not_lt_zero i)
  | succ j ih =>
      intro hle
      have hjlt : j < specs.length := Nat.lt_of_succ_le hle
      have ihh := ih (Nat.le_of_lt hjlt)
      have hj : specs[j]? = Option.some specs[j] := List.getElem?_eq_getElem hjlt
      obtain ⟨ag, hag⟩ := Option.isSome_iff_exists.mp
        (ihh.2.1 specs[j] (List.getElem_mem hjlt))
      have hstep := hierPrefix_succ env task plan ctx specs st0 j specs[j] hj
      refine ⟨?_, ?_, ?_⟩
      · rw [hstep, hierStep_resolved env task plan ctx specs[j] _ ag hag]
        simp only [List.length_append, ihh.1]
        simp
        omega
      · intro n hn
        rw [hstep, hierStep_resolved env task plan ctx specs[j] _ ag hag]
        exact dictLookup_dictSet_isSome _ _ _ n (ihh.2.1 n hn)
      · intro i hi hilt
        rcases Nat.lt_succ_iff_lt_or_eq.mp hi with hlt | heq
        · obtain ⟨res, hmem, hentry⟩ := ihh.2.2 i hlt hilt
          refine ⟨res, ?_, hentry⟩
          rw [hstep, hierStep_resolved env task plan ctx specs[j] _ ag hag]
          have hne : specs[i] ≠ specs[j] := by
            intro he
            exact (Nat.ne_of_lt hlt) (hnd.getElem_inj_iff.mp he)
          exact mem_dictSet_preserve _ _ _ _ _ hne hmem
        · subst heq
          refine ⟨ag.run env (specialistTask task plan
              (hierPrefixState env task plan ctx specs st0 i).specialist_results specs[i])
              (Option.some ctx), ?_, ?_⟩
          · rw [hstep, hierStep_resolved env task plan ctx specs[i] _ ag hag]
            exact mem_dictSet_self _ _ _
          · rw [hstep, hierStep_resolved env task plan ctx specs[i] _ ag hag]
            show ((hierPrefixState env task plan ctx specs st0 i).log ++ _)[st0.log.length + 2*i + 1]? = _
            rw [List.getElem?_append_right (by rw [ihh.1]; omega),
                ihh.1, show st0.log.length + 2*i + 1 - (st0.log.length + 2*i) = 1 by omega]
            simp

lemma hierLog_entry (env : PyEnv) (task plan : String) (ctx : List (String × PyObj))
    (specs : List String) (st0 : HierState)
    (hres : ∀ n ∈ specs, (dictLookup st0.agents n).isSome = true)
    (hnd : specs.Nodup) (j : Nat) (hjlt : j < specs.length) :
    ∃ res : RunResult,
      (hierPrefixState env task plan ctx specs st0 specs.length).log[st0.log.length + 2*j]? =
        Option.some
          { step := "specialist_" ++ specs[j] ++ "_start", agent := specs[j],
            input := LogIO.taskOnly (specialistTask task plan
              (hierPrefixState env task plan ctx specs st0 j).specialist_results specs[j]),
            output := LogIO.noData } ∧
      (hierPrefixState env task plan ctx specs st0 specs.length).log[st0.log.length + 2*j + 1]? =
        Option.some
          { step := "specialist_" ++ specs[j] ++ "_complete", agent := specs[j],
            input := LogIO.noData, output := LogIO.result res } := by
  have hj : specs[j]? = Option.some specs[j] := List.getElem?_eq_getElem hjlt
  have inv := hierPrefix_invariants env task plan ctx specs st0 hres hnd j (Nat.le_of_lt hjlt)
  obtain ⟨ag, hag⟩ := Option.isSome_iff_exists.mp (inv.2.1 specs[j] (List.getElem_mem hjlt))
  have hstep := hierPrefix_succ env task plan ctx specs st0 j specs[j] hj
  have hlogj1 : (hierPrefixState env task plan ctx specs st0 (j+1)).log =
      (hierPrefixState env task plan ctx specs st0 j).log ++
        [{ step := "specialist_" ++ specs[j] ++ "_start", agent := specs[j],
           input := LogIO.taskOnly (specialistTask task plan
             (hierPrefixState env task plan ctx specs st0 j).specialist_results specs[j]),
           output := LogIO.noData },
         { step := "specialist_" ++ specs[j] ++ "_complete", agent := specs[j],
           input := LogIO.noData,
           output := LogIO.result (ag.run env (specialistTask task plan
             (hierPrefixState env task plan ctx specs st0 j).specialist_results specs[j])
             (Option.some ctx)) }] := by
    rw [hstep, hierStep_resolved env task plan ctx specs[j] _ ag hag]
  obtain ⟨suff, hsuff⟩ := hierPrefix_log_mono env task plan ctx specs st0 (j+1) specs.length
    (Nat.succ_le_of_lt hjlt)
  refine ⟨ag.run env (specialistTask task plan
      (hierPrefixState env task plan ctx specs st0 j).specialist_results specs[j])
      (Option.some ctx), ?_, ?_⟩
  · rw [hsuff, hlogj1, List.append_assoc,
        List.getElem?_append_right (Nat.le_of_eq inv.1), inv.1, Nat.sub_self]
    rfl
  · rw [hsuff, hlogj1, List.append_assoc,
        List.getElem?_append_right
          (by rw [inv.1]; omega :
            (hierPrefixState env task plan ctx specs st0 j).log.length ≤ st0.log.length + 2*j + 1),
        inv.1, show st0.log.length + 2*j + 1 - (st0.log.length + 2*j) = 1 by omega]
    simp

lemma hierExecute_ok_inv (env : PyEnv) (agents : List (String × Agent)) (cfg : WorkflowCfg)
    (task : String) (data : List (String × PyObj)) (r : WfResult)
    (hok : HierarchicalWorkflow.execute env agents cfg task data = Except.ok r) :
    ∃ (sup : String) (specs : List String) (supAg : Agent) (stv : String) (fr : RunResult),
      cfg.agent_sequence.getD [] = sup :: specs ∧
      dictLookup agents sup = Option.some supAg ∧
      r.execution_log =
        (hierPrefixState env task
          (supAg.run env (planningTask task specs (specialistCapabilities agents specs))
            (Option.some (hierContext agents data specs))).content
          (hierContext agents data specs) specs
          { agents := dictSet agents sup
              { supAg with history := (supAg.run env
                  (planningTask task specs (specialistCapabilities agents specs))
                  (Option.some (hierContext agents data specs))).history },
            specialist_results := [],
            total_usage := (supAg.run env
              (planningTask task specs (specialistCapabilities agents specs))
              (Option.some (hierContext agents data specs))).usage,
            histories := (supAg.run env
              (planningTask task specs (specialistCapabilities agents specs))
              (Option.some (hierContext agents data specs))).history,
            log := [{ step := "supervisor_planning", agent := sup,
                      input := LogIO.taskInput
                        (planningTask task specs (specialistCapabilities agents specs))
                        (hierContext agents data specs),
                      output := LogIO.noData },
                    { step := "supervisor_plan_complete", agent := sup,
                      input := LogIO.noData,
                      output := LogIO.result (supAg.run env
                        (planningTask task specs (specialistCapabilities agents specs))
                        (Option.some (hierContext agents data specs))) }],
            calls := (supAg.run env
              (planningTask task specs (specialistCapabilities agents specs))
              (Option.some (hierContext agents data specs))).calls }
          specs.length).log ++
        [{ step := "supervisor_synthesis_start", agent := sup,
           input := LogIO.taskOnly stv, output := LogIO.noData },
         { step := "supervisor_synthesis_complete", agent := sup,
           input := LogIO.noData, output := LogIO.result fr }] := by
  unfold HierarchicalWorkflow.execute at hok
  cases hseq : cfg.agent_sequence.getD [] with
  | nil => rw [hseq] at hok; simp at hok
  | cons sup specs =>
      rw [hseq] at hok
      by_cases hlen : (sup :: specs).length < 2
      · simp only [hlen, if_true] at hok
        cases hok
      · simp only [hlen, if_false] at hok
        cases hsup : dictLookup agents sup with
        | none => rw [hsup] at hok; cases hok
        | some supAg =>
            rw [hsup] at hok
            cases hok
            exact ⟨sup, specs, supAg, _, _, rfl, hsup, by
              unfold hierPrefixState
              rw [List.take_length]⟩

/-- C6: in a successful hierarchical-workflow execution whose configured
specialists are distinct and all resolvable, the log is exactly a planning
pair for the supervisor, one delegation pair per configured specialist in
configured order — regardless of the plan text the supervisor produced —
and a synthesis pair for the supervisor; each specialist's task string
contains the original task, the plan text, and every previously produced
specialist output as substrings. -/
theorem hier_specialists_in_configured_order (env : PyEnv) (agents : List (String × Agent))
    (cfg : WorkflowCfg) (task : String) (data : List (String × PyObj)) (r : WfResult)
    (hok : HierarchicalWorkflow.execute env agents cfg task data = Except.ok r)
    (hspec : ∀ n ∈ (cfg.agent_sequence.getD []).tail, (dictLookup agents n).isSome = true)
    (hnd : (cfg.agent_sequence.getD []).tail.Nodup) :
    r.execution_log.length = 2 * (cfg.agent_sequence.getD []).tail.length + 4 ∧
    (∀ sup, (cfg.agent_sequence.getD [])[0]? = Option.some sup →
        (∃ pt cv, r.execution_log[0]? =
            Option.some
              { step := "supervisor_planning", agent := sup,
                input := LogIO.taskInput pt cv, output := LogIO.noData }) ∧
        (∃ pr, r.execution_log[1]? =
            Option.some
              { step := "supervisor_plan_complete", agent := sup,
                input := LogIO.noData, output := LogIO.result pr }) ∧
        (∃ stv, r.execution_log[2 * (cfg.agent_sequence.getD []).tail.length + 2]? =
            Option.some
              { step := "supervisor_synthesis_start", agent := sup,
                input := LogIO.taskOnly stv, output := LogIO.noData }) ∧
        (∃ fr, r.execution_log[2 * (cfg.agent_sequence.getD []).tail.length + 3]? =
            Option.some
              { step := "supervisor_synthesis_complete", agent := sup,
                input := LogIO.noData, output := LogIO.result fr })) ∧
    (∀ j nm, (cfg.agent_sequence.getD []).tail[j]? = Option.some nm →
        ∃ t res,
          r.execution_log[2*j+2]? =
            Option.some
              { step := "specialist_" ++ nm ++ "_start", agent := nm,
                input := LogIO.taskOnly t, output := LogIO.noData } ∧
          r.execution_log[2*j+3]? =
            Option.some
              { step := "specialist_" ++ nm ++ "_complete", agent := nm,
                input := LogIO.noData, output := LogIO.result res } ∧
          isSubstrOf task t ∧
          (∀ s2 a2 pr, r.execution_log[1]? =
              Option.some
                { step := s2, agent := a2, input := LogIO.noData,
                  output := LogIO.result pr } →
              isSubstrOf pr.content t) ∧
          (∀ i pnm pres s3 a3, i < j →
              (cfg.agent_sequence.getD []).tail[i]? = Option.some pnm →
              r.execution_log[2*i+3]? =
                Option.some
                  { step := s3, agent := a3, input := LogIO.noData,
                    output := LogIO.result pres } →
              isSubstrOf pres.content t)) := by
  obtain ⟨sup, specs, supAg, stv, fr, hseq, hsup, hlog⟩ :=
    hierExecute_ok_inv env agents cfg task data r hok
  have htail : (cfg.agent_sequence.getD []).tail = specs := by
    rw [hseq]
    rfl
  have hspec2 : ∀ n ∈ specs, (dictLookup agents n).isSome = true := by
    rw [← htail]
    exact hspec
  have hnd2 : specs.Nodup := by
    rw [← htail]
    exact hnd
  rw [htail, hseq]
  revert hlog
  generalize supAg.run env (planningTask task specs (specialistCapabilities agents specs))
    (Option.some (hierContext agents data specs)) = pr
  generalize hcv : hierContext agents data specs = cv
  generalize hpt : planningTask task specs (specialistCapabilities agents specs) = pt
  intro hlog
  set st0 : HierState :=
    { agents := dictSet agents sup { supAg with history := pr.history },
      specialist_results := [],
      total_usage := pr.usage,
      histories := pr.history,
      log := [{ step := "supervisor_planning", agent := sup,
                input := LogIO.taskInput pt cv, output := LogIO.noData },
              { step := "supervisor_plan_complete", agent := sup,
                input := LogIO.noData, output := LogIO.result pr }],
      calls := pr.calls } with hst0
  have hres0 : ∀ n ∈ specs, (dictLookup st0.agents n).isSome = true := by
    intro n hn
    rw [hst0]
    exact dictLookup_dictSet_isSome _ _ _ n (hspec2 n hn)
  have hst0len : st0.log.length = 2 := by
    rw [hst0]
    simp
  have hJ := (hierPrefix_invariants env task pr.content cv specs st0 hres0 hnd2
    specs.length (Nat.le_refl _)).1
  refine ⟨?_, ?_, ?_⟩
  · rw [hlog, List.length_append, hJ, hst0len]
    simp
    omega
  · intro supx hsupx
    simp only [List.getElem?_cons_zero, Option.some.injEq] at hsupx
    subst hsupx
    obtain ⟨suff, hsuff⟩ := hierPrefix_log_mono env task pr.content cv specs st0 0
      specs.length (Nat.zero_le _)
    have hsuff2 : (hierPrefixState env task pr.content cv specs st0 specs.length).log =
        st0.log ++ suff := hsuff
    refine ⟨⟨pt, cv, ?_⟩, ⟨pr, ?_⟩, ⟨stv, ?_⟩, ⟨fr, ?_⟩⟩
    · rw [hlog, hsuff2, hst0]
      simp
    · rw [hlog, hsuff2, hst0]
      simp
    · rw [hlog,
          List.getElem?_append_right (by rw [hJ, hst0len]; omega),
          hJ, hst0len, show 2 * specs.length + 2 - (2 + 2 * specs.length) = 0 by omega]
      rfl
    · rw [hlog,
          List.getElem?_append_right (by rw [hJ, hst0len]; omega),
          hJ, hst0len, show 2 * specs.length + 3 - (2 + 2 * specs.length) = 1 by omega]
      simp
  · intro j nm hj
    have hjlt : j < specs.length := (List.getElem?_eq_some.mp hj).1
    have hnm : specs[j] = nm := by
      have h2 := List.getElem?_eq_getElem hjlt
      rw [hj] at h2
      exact ((Option.some.injEq _ _).mp h2).symm
    obtain ⟨res, hstart, hcompl⟩ :=
      hierLog_entry env task pr.content cv specs st0 hres0 hnd2 j hjlt
    refine ⟨specialistTask task pr.content
        (hierPrefixState env task pr.content cv specs st0 j).specialist_results specs[j],
      res, ?_, ?_, ?_, ?_, ?_⟩
    · rw [hlog, List.getElem?_append_left (by rw [hJ, hst0len]; omega),
          show 2*j+2 = st0.log.length + 2*j by rw [hst0len]; omega, hstart, hnm]
    · rw [hlog, List.getElem?_append_left (by rw [hJ, hst0len]; omega),
          show 2*j+3 = st0.log.length + 2*j + 1 by rw [hst0len]; omega, hcompl, hnm]
    · exact (specialistTask_contains task pr.content _ specs[j]).1
    · intro s2 a2 prx hprx
      obtain ⟨suff, hsuff⟩ := hierPrefix_log_mono env task pr.content cv specs st0 0
        specs.length (Nat.zero_le _)
      have hsuff2 : (hierPrefixState env task pr.content cv specs st0 specs.length).log =
          st0.log ++ suff := hsuff
      have hp1 : r.execution_log[1]? =
          Option.some { step := "supervisor_plan_complete", agent := sup,
                        input := LogIO.noData, output := LogIO.result pr } := by
        rw [hlog, hsuff2, hst0]
        simp
      rw [hp1] at hprx
      simp only [Option.some.injEq, LogEntry.mk.injEq, LogIO.result.injEq, and_true,
        true_and] at hprx
      rw [← hprx.2.2]
      exact (specialistTask_contains task pr.content _ specs[j]).2.1
    · intro i pnm pres s3 a3 hij hpnm hpres
      have hilt : i < specs.length := Nat.lt_trans hij hjlt
      obtain ⟨resi, hmem, hentry⟩ :=
        (hierPrefix_invariants env task pr.content cv specs st0 hres0 hnd2 j
          (Nat.le_of_lt hjlt)).2.2 i hij hilt
      obtain ⟨suffI, hsuffI⟩ := hierPrefix_log_mono env task pr.content cv specs st0 (i+1)
        specs.length (Nat.succ_le_of_lt hilt)
      have hIlen : (hierPrefixState env task pr.content cv specs st0 (i+1)).log.length =
          st0.log.length + 2 * (i+1) :=
        (hierPrefix_invariants env task pr.content cv specs st0 hres0 hnd2 (i+1)
          (Nat.succ_le_of_lt hilt)).1
      have hfull : r.execution_log[2*i+3]? =
          Option.some
            { step := "specialist_" ++ specs[i] ++ "_complete", agent := specs[i],
              input := LogIO.noData, output := LogIO.result resi } := by
        rw [hlog, List.getElem?_append_left (by rw [hJ, hst0len]; omega), hsuffI,
            List.getElem?_append_left (by rw [hIlen, hst0len]; omega),
            show 2*i+3 = st0.log.length + 2*i + 1 by rw [hst0len]; omega, hentry]
      rw [hfull] at hpres
      simp only [Option.some.injEq, LogEntry.mk.injEq, LogIO.result.injEq, and_true,
        true_and] at hpres
      rw [← hpres.2.2]
      exact (specialistTask_contains task pr.content _ specs[j]).2.2 specs[i] resi.content hmem

/-- Closed instance of the sequential-threading theorem on the concrete
two-agent scenario: execution succeeds, logs exactly two pairs of entries,
and the context handed to agent B holds the entry `A_output` whose value
is exactly the content `"X"` that agent A returned. -/
theorem seq_context_and_task_threading_witness :
    (SequentialWorkflow.execute failEnv exSeqAgents exSeqCfg "t" []).map
      (fun r => r.execution_log.length) = Except.ok 4 ∧
    ("A_output", PyObj.str "X") ∈
      [("log_source", PyObj.pynone), ("intent_source", PyObj.pynone),
       ("available_data", PyObj.list []), ("A_output", PyObj.str "X")] := by
  cases hE : SequentialWorkflow.execute failEnv exSeqAgents exSeqCfg "t" [] with
  | error e =>
      have hsome : (SequentialWorkflow.execute failEnv exSeqAgents exSeqCfg
          "t" []).toOption.isSome = true := rfl
      rw [hE] at hsome
      simp [Except.toOption] at hsome
  | ok r =>
      have hth := seq_context_and_task_threading failEnv exSeqAgents exSeqCfg "t" [] r hE
      constructor
      · show Except.ok r.execution_log.length = Except.ok 4
        rw [hth.1]
        rfl
      · have h2 : (SequentialWorkflow.execute failEnv exSeqAgents exSeqCfg "t" []).map
            (fun r => r.execution_log[2]?) = Except.ok (Option.some
              { step := "agent_2_start", agent := "B",
                input := LogIO.taskInput "Previous agent output: X\n\nOriginal task: t"
                  [("log_source", PyObj.pynone), ("intent_source", PyObj.pynone),
                   ("available_data", PyObj.list []), ("A_output", PyObj.str "X")],
                output := LogIO.noData }) := rfl
        rw [hE] at h2
        simp only [Except.map] at h2
        have hstart := (Except.ok.injEq _ _).mp h2
        have hm1 : (SequentialWorkflow.execute failEnv exSeqAgents exSeqCfg "t" []).map
            (fun r => r.execution_log[1]?) = Except.ok (Option.some
              { step := "agent_1_complete", agent := "A", input := LogIO.noData,
                output := LogIO.result
                  { content := "X", structured_data := Option.none, tool_calls := [],
                    usage := { input_tokens := 1, output_tokens := 2, total_tokens := 3 },
                    history := [{ iteration := IterLabel.num 1,
                                  messages := [Message.user "Context from previous steps:\nlog_source: value\nintent_source: value\navailable_data: null\n\nTask: t"],
                                  response := { content := "X", tool_calls := [],
                                                usage := { input_tokens := 1, output_tokens := 2, total_tokens := 3 } } }],
                    calls := [({ model := Option.none,
                                 messages := [Message.user "Context from previous steps:\nlog_source: value\nintent_source: value\navailable_data: null\n\nTask: t"],
                                 system := "You are A.", tools := Option.none,
                                 json_schema := Option.none, max_tokens := 4096,
                                 temperature := 0 },
                               { content := "X", tool_calls := [],
                                 usage := { input_tokens := 1, output_tokens := 2, total_tokens := 3 } })],
                    messages := [Message.user "Context from previous steps:\nlog_source: value\nintent_source: value\navailable_data: null\n\nTask: t"] } }) := rfl
        rw [hE] at hm1
        simp only [Except.map] at hm1
        have hpres := (Except.ok.injEq _ _).mp hm1
        have hmem := hth.2.2.2.2 1 "agent_2_start" "B"
          "Previous agent output: X\n\nOriginal task: t"
          [("log_source", PyObj.pynone), ("intent_source", PyObj.pynone),
           ("available_data", PyObj.list []), ("A_output", PyObj.str "X")]
          hstart 0 "A" _ "agent_1_complete" "A" (by decide) rfl
          (by
            intro i2 h1 h2 _
            omega)
          hpres
        exact hmem

/-- Closed instance of the hierarchical-ordering theorem on the concrete
supervisor + two-specialist scenario: execution succeeds and logs exactly
four pairs of entries. -/
theorem hier_specialists_in_configured_order_witness :
    (HierarchicalWorkflow.execute failEnv exHierAgents exHierCfg "t" []).map
      (fun r => r.execution_log.length) = Except.ok 8 := by
  cases hE : HierarchicalWorkflow.execute failEnv exHierAgents exHierCfg "t" [] with
  | error e =>
      have hsome : (HierarchicalWorkflow.execute failEnv exHierAgents exHierCfg
          "t" []).toOption.isSome = true := rfl
      rw [hE] at hsome
      simp [Except.toOption] at hsome
  | ok r =>
      have h := (hier_specialists_in_configured_order failEnv exHierAgents exHierCfg "t" [] r hE
        (by decide) (by decide)).1
      show Except.ok r.execution_log.length = Except.ok 8
      rw [h]
      rfl
